import Mathlib

/-
Verification of the parsec grammar subsystem: the schema-parameterized
Lark grammar materializer (src/lib/cfg/grammar-builder.ts together with
the template in grammar-template.ts) and the hand-written recursive
descent verifier / derivation-tree builder (src/lib/cfg/grammar-parser.ts).

Strings are modelled as `List Char`; the mutable TypeScript `ParseState`
cursor is modelled by explicit state passing: every rule function takes a
`ParseState` and returns the parse result together with the state as it is
left by the TypeScript code (including states that were *not* rolled back,
so that the roll-back contract is a provable property, not a modelling
artifact).
-/

/-- Shorthand turning a string literal into the `List Char` representation
used throughout this development. -/
def cs (s : String) : List Char := s.toList

/-- Character class `[0-9]` used by the NUMBER and DATE_LITERAL terminals. -/
def isDigitC (c : Char) : Bool := 48 ≤ c.toNat && c.toNat ≤ 57

/-- Character class `[a-z_]`, the leading character of the ALIAS terminal. -/
def isAliasHead (c : Char) : Bool := (97 ≤ c.toNat && c.toNat ≤ 122) || c.toNat = 95

/-- Character class `[a-z0-9_]`, the tail characters of the ALIAS terminal. -/
def isAliasTail (c : Char) : Bool := isAliasHead c || isDigitC c

/-- Character class of the STRING_VALUE terminal: ASCII letters, digits,
underscore, dot, dash and forward slash. -/
def isStringValueChar (c : Char) : Bool :=
  isAliasTail c || (65 ≤ c.toNat && c.toNat ≤ 90) || c.toNat = 46 || c.toNat = 45 ||
    c.toNat = 47

/-- Decide whether `pat` is a prefix of `s` (TypeScript
`String.prototype.startsWith` at an offset, after the offset is dropped). -/
def startsWithL : List Char → List Char → Bool
  | [], _ => true
  | _ :: _, [] => false
  | a :: as, b :: bs => a == b && startsWithL as bs

/-- Greedy anchored match of at most `cap` characters of class `p`
(the `{m,n}` bounded repetition of the terminal regexes). -/
def takeClassUpTo (p : Char → Bool) : Nat → List Char → List Char
  | 0, _ => []
  | _, [] => []
  | n + 1, c :: rest => if p c then c :: takeClassUpTo p n rest else []

/-- Whitespace set trimmed by JavaScript `String.prototype.trim` (the ASCII
part, which is all that can occur in this grammar's inputs). -/
def isJsWhitespace (c : Char) : Bool :=
  c == ' ' || c == '\t' || c == '\n' || c == '\r' || c.toNat = 11 || c.toNat = 12

/-- Model of `sql.trim()`: drop leading and trailing whitespace. -/
def trimL (l : List Char) : List Char :=
  ((l.dropWhile isJsWhitespace).reverse.dropWhile isJsWhitespace).reverse

/-- Join string pieces with a separator (TypeScript `Array.prototype.join`). -/
def joinSep (sep : List Char) : List (List Char) → List Char
  | [] => []
  | [x] => x
  | x :: y :: rest => x ++ sep ++ joinSep sep (y :: rest)

/-- Stable insertion of a string into a list sorted by descending length:
elements of equal length that are already present stay in front, which is
exactly the ECMAScript stable-sort behaviour for the comparator
`(a, b) => b.length - a.length`. -/
def insertByLen (x : List Char) : List (List Char) → List (List Char)
  | [] => [x]
  | y :: ys => if x.length < y.length then y :: insertByLen x ys else x :: y :: ys

/-- Stable sort by descending string length, as performed by
`[...list].sort((a, b) => b.length - a.length)` in the parser. -/
def sortDescLen (l : List (List Char)) : List (List Char) :=
  l.foldr insertByLen []

/-- Keep the first occurrence of every element (`[...new Set(list)]`). -/
def dedupFirst : List String → List String
  | [] => []
  | x :: rest => if x ∈ rest then
      -- JavaScript Sets keep the FIRST insertion; model by removing later
      -- duplicates instead of earlier ones.
      x :: dedupFirst (rest.filter (fun y => y ≠ x))
    else x :: dedupFirst rest
termination_by l => l.length
decreasing_by
  · exact Nat.lt_succ_of_le (List.length_filter_le _ _)
  · exact Nat.lt_succ_self _

/-- GetSubstitution of ECMAScript `String.prototype.replace` with a string
search pattern: the replacement template is scanned for dollar
substitution patterns. A doubled dollar yields one dollar, dollar-ampersand
yields the matched search string, dollar-backquote the part of the subject
before the match, and dollar-quote the part after the match; every other
dollar (including the digit and angle-bracket forms, which have no capture
groups to refer to when the pattern is a plain string) stays literal
text. -/
def getSubstitution (matched before after : List Char) :
    List Char → List Char
  | '$' :: '$' :: rest => '$' :: getSubstitution matched before after rest
  | '$' :: '&' :: rest => matched ++ getSubstitution matched before after rest
  | '$' :: '\x60' :: rest => before ++ getSubstitution matched before after rest
  | '$' :: '\x27' :: rest => after ++ getSubstitution matched before after rest
  | c :: rest => c :: getSubstitution matched before after rest
  | [] => []

/-- Scanning loop of `replaceFirst`: walk the subject left to right
holding the already-passed prefix in reversed form; at the first position
where the pattern matches, emit the prefix, the processed replacement and
the rest, and when the pattern never matches return the subject
unchanged. -/
def replaceFirstGo (pat v : List Char) : List Char → List Char → List Char
  | rpre, [] => rpre.reverse
  | rpre, c :: rest =>
    if startsWithL pat (c :: rest) then
      rpre.reverse ++
        getSubstitution pat rpre.reverse ((c :: rest).drop pat.length) v ++
        (c :: rest).drop pat.length
    else replaceFirstGo pat v (c :: rpre) rest

/-- Replace the first occurrence of `pat` in `s`, leaving `s` unchanged
when `pat` does not occur (TypeScript `String.prototype.replace` with a
string pattern): the matched occurrence is spliced out and the replacement
string is inserted after processing its ECMAScript dollar substitution
patterns against the match. -/
def replaceFirst (s pat v : List Char) : List Char := replaceFirstGo pat v [] s

/-- Decide whether `pat` occurs as a contiguous substring of `s`. -/
def containsSub (s pat : List Char) : Bool :=
  match s with
  | [] => startsWithL pat []
  | _ :: rest => startsWithL pat s || containsSub rest pat

/-- Whether matching `pat` against `a` fails with a mismatching character
inside `a` itself (so the failure cannot be repaired by whatever text
follows `a`). -/
def mismNow : List Char → List Char → Bool
  | [], _ => false
  | _, [] => false
  | p :: ps, c :: rest => !(p == c) || mismNow ps rest

/-- Whether `pat` mismatches inside `a` at every start offset of `a`, so an
occurrence of `pat` in `a` followed by any continuation can only start
after all of `a`. -/
def noHitIn (pat : List Char) : List Char → Bool
  | [] => true
  | c :: rest => mismNow pat (c :: rest) && noHitIn pat rest

/-- Derivation-tree node produced by the verifier
(`GrammarDerivationNode` in src/lib/types). -/
inductive GrammarDerivationNode where
  | mk (rule : String) (matchedText : List Char)
       (children : List GrammarDerivationNode)

/-- Rule name of a derivation node. -/
def GrammarDerivationNode.rule : GrammarDerivationNode → String
  | .mk r _ _ => r

/-- Matched text of a derivation node. -/
def GrammarDerivationNode.matchedText : GrammarDerivationNode → List Char
  | .mk _ t _ => t

/-- Children of a derivation node. -/
def GrammarDerivationNode.children :
    GrammarDerivationNode → List GrammarDerivationNode
  | .mk _ _ c => c

/-- Helper mirroring the `node(rule, matchedText, children)` factory of the
parser source. -/
def node (rule : String) (matchedText : List Char)
    (children : List GrammarDerivationNode) : GrammarDerivationNode :=
  .mk rule matchedText children

/-- Parser state: the input string and the current cursor position
(class `ParseState` of grammar-parser.ts). -/
structure ParseState where
  input : List Char
  pos : Nat
deriving DecidableEq

/-- Unconsumed remainder of the input (`get remaining`). -/
def ParseState.remaining (s : ParseState) : List Char := s.input.drop s.pos

/-- End-of-input test (`get isAtEnd`). -/
def ParseState.isAtEnd (s : ParseState) : Bool := s.input.length ≤ s.pos

/-- Literal match at the cursor (`matchLiteral`): on success the cursor
advances past the literal, on failure the state is untouched. -/
def ParseState.matchLiteral (s : ParseState) (lit : List Char) :
    Bool × ParseState :=
  if startsWithL lit (s.input.drop s.pos) then
    (true, ⟨s.input, s.pos + lit.length⟩)
  else (false, s)

/-- Restore the cursor to a previously saved position (`restore`; `save`
is modelled by reading `s.pos`). -/
def ParseState.restore (s : ParseState) (saved : Nat) : ParseState :=
  ⟨s.input, saved⟩

/-
Known terminals of the verifier (grammar-parser.ts lines 86-114). All are
kept in their source order; length-descending sorting happens at the use
sites, exactly as in the source.
-/

/-- Aggregate function names (`AGG_FUNCS`). -/
def AGG_FUNCS : List (List Char) :=
  [cs "count", cs "sum", cs "avg", cs "min", cs "max", cs "uniq", cs "uniqExact"]

/-- Date-truncation expressions (`DATE_TRUNC_EXPRS`). -/
def DATE_TRUNC_EXPRS : List (List Char) :=
  [cs "toStartOfHour(created_at)", cs "toStartOfDay(created_at)",
   cs "toStartOfWeek(created_at)", cs "toStartOfMonth(created_at)",
   cs "toDate(created_at)"]

/-- Comparison operators in their fixed pre-ordered list (`COMPARE_OPS`). -/
def COMPARE_OPS : List (List Char) :=
  [cs "!=", cs ">=", cs "<=", cs "=", cs ">", cs "<"]

/-- Time-interval units (`TIME_UNITS`). -/
def TIME_UNITS : List (List Char) := [cs "HOUR", cs "DAY", cs "WEEK", cs "MONTH"]

/-- The verifier's hard-coded column list (`KNOWN_COLUMNS`). -/
def KNOWN_COLUMNS : List (List Char) :=
  [cs "actor_login", cs "repo_name", cs "title", cs "body", cs "ref",
   cs "id", cs "number", cs "is_private", cs "created_at", cs "type",
   cs "action"]

/-- The verifier's hard-coded string-column list (`STRING_COLS`). -/
def STRING_COLS : List (List Char) :=
  [cs "actor_login", cs "repo_name", cs "title", cs "body", cs "ref"]

/-- The verifier's hard-coded numeric-column list (`NUMERIC_COLS`). -/
def NUMERIC_COLS : List (List Char) := [cs "id", cs "number", cs "is_private"]

/-- Terminal parser for NUMBER, regex `[0-9]{1,6}` anchored and greedy
(`parseNumber`). -/
def parseNumber (s : ParseState) : Option GrammarDerivationNode × ParseState :=
  match takeClassUpTo isDigitC 6 (s.input.drop s.pos) with
  | [] => (none, s)
  | m => (some (node "number" m []), ⟨s.input, s.pos + m.length⟩)

/-- Terminal parser for ALIAS, regex of one alias-head character followed by
at most 29 alias-tail characters (`parseAlias`). -/
def parseAlias (s : ParseState) : Option GrammarDerivationNode × ParseState :=
  match s.input.drop s.pos with
  | [] => (none, s)
  | c :: rest =>
    if isAliasHead c then
      (some (node "alias" (c :: takeClassUpTo isAliasTail 29 rest) []),
       ⟨s.input, s.pos + (c :: takeClassUpTo isAliasTail 29 rest).length⟩)
    else (none, s)

/-- Terminal parser for STRING_VALUE, at most 100 characters of its class
(`parseStringValue`). -/
def parseStringValue (s : ParseState) :
    Option GrammarDerivationNode × ParseState :=
  match takeClassUpTo isStringValueChar 100 (s.input.drop s.pos) with
  | [] => (none, s)
  | m => (some (node "string_value" m []), ⟨s.input, s.pos + m.length⟩)

/-- Terminal parser for DATE_LITERAL, four digits, a dash, two digits, a
dash, two digits (`parseDateLiteral`). -/
def parseDateLiteral (s : ParseState) :
    Option GrammarDerivationNode × ParseState :=
  match s.input.drop s.pos with
  | a :: b :: c :: d :: e :: f :: g :: h :: i :: j :: _ =>
    if isDigitC a && isDigitC b && isDigitC c && isDigitC d && e == '-' &&
        isDigitC f && isDigitC g && h == '-' && isDigitC i && isDigitC j then
      (some (node "date_literal" [a, b, c, d, e, f, g, h, i, j] []),
       ⟨s.input, s.pos + 10⟩)
    else (none, s)
  | _ => (none, s)

/-- Shared shape of the source's try-each-literal loops: attempt each
literal in order and wrap the first hit in a node carrying `rule`. -/
def tryLiterals (rule : String) :
    List (List Char) → ParseState → Option GrammarDerivationNode × ParseState
  | [], s => (none, s)
  | lit :: rest, s =>
    match s.matchLiteral lit with
    | (true, s1) => (some (node rule lit []), s1)
    | (false, s1) => tryLiterals rule rest s1

/-- Column-reference parser: longest column names first, cursor restored on
failure (`parseColumnRef`). -/
def parseColumnRef (s : ParseState) :
    Option GrammarDerivationNode × ParseState :=
  match tryLiterals "column_ref" (sortDescLen KNOWN_COLUMNS) s with
  | (some n, s1) => (some n, s1)
  | (none, s1) => (none, s1.restore s.pos)

/-- Aggregate-function-name parser, longest first (`parseAggFunc`). -/
def parseAggFunc (s : ParseState) : Option GrammarDerivationNode × ParseState :=
  tryLiterals "agg_func" (sortDescLen AGG_FUNCS) s

/-- Date-truncation-expression parser, longest first (`parseDateTruncExpr`). -/
def parseDateTruncExpr (s : ParseState) :
    Option GrammarDerivationNode × ParseState :=
  tryLiterals "date_trunc_expr" (sortDescLen DATE_TRUNC_EXPRS) s

/-- Comparison-operator parser over the pre-ordered `COMPARE_OPS` list
(`parseCompareOp`). -/
def parseCompareOp (s : ParseState) :
    Option GrammarDerivationNode × ParseState :=
  tryLiterals "compare_op" COMPARE_OPS s

/-- Aggregate expression `agg_func "(" column_ref? ")"` (`parseAggExpr`). -/
def parseAggExpr (s : ParseState) : Option GrammarDerivationNode × ParseState :=
  match parseAggFunc s with
  | (none, s1) => (none, s1)
  | (some func, s1) =>
    match s1.matchLiteral (cs "(") with
    | (false, s2) => (none, s2.restore s.pos)
    | (true, s2) =>
      match parseColumnRef s2 with
      | (colRef?, s3) =>
        match s3.matchLiteral (cs ")") with
        | (false, s4) => (none, s4.restore s.pos)
        | (true, s4) =>
          match colRef? with
          | some colRef =>
            (some (node "agg_expr"
              (func.matchedText ++ cs "(" ++ colRef.matchedText ++ cs ")")
              [func, colRef]), s4)
          | none =>
            (some (node "agg_expr" (func.matchedText ++ cs "()") [func]), s4)

/-- Select item, first attempt: `agg_expr " AS " alias`; on failure the
cursor is restored to `saved` and the date-truncation attempt follows
(`parseSelectItem`, split along its fall-through points). -/
def selectItemColRef (s : ParseState) :
    Option GrammarDerivationNode × ParseState :=
  match parseColumnRef s with
  | (some colRef, s1) =>
    (some (node "select_item" colRef.matchedText [colRef]), s1)
  | (none, s1) => (none, s1)

/-- Select item, second attempt: `date_trunc_expr " AS " alias`, falling
back to the bare column-reference attempt after restoring. -/
def selectItemDT (saved : Nat) (s : ParseState) :
    Option GrammarDerivationNode × ParseState :=
  match parseDateTruncExpr s with
  | (some dtExpr, s1) =>
    match s1.matchLiteral (cs " AS ") with
    | (true, s2) =>
      match parseAlias s2 with
      | (some al, s3) =>
        (some (node "select_item"
          (dtExpr.matchedText ++ cs " AS " ++ al.matchedText) [dtExpr, al]), s3)
      | (none, s3) => selectItemColRef (s3.restore saved)
    | (false, s2) => selectItemColRef (s2.restore saved)
  | (none, s1) => selectItemColRef (s1.restore saved)

/-- Select item: aggregate alias, then date-truncation alias, then bare
column reference (`parseSelectItem`). -/
def parseSelectItem (s : ParseState) :
    Option GrammarDerivationNode × ParseState :=
  match parseAggExpr s with
  | (some aggExpr, s1) =>
    match s1.matchLiteral (cs " AS ") with
    | (true, s2) =>
      match parseAlias s2 with
      | (some al, s3) =>
        (some (node "select_item"
          (aggExpr.matchedText ++ cs " AS " ++ al.matchedText) [aggExpr, al]), s3)
      | (none, s3) => selectItemDT s.pos (s3.restore s.pos)
    | (false, s2) => selectItemDT s.pos (s2.restore s.pos)
  | (none, s1) => selectItemDT s.pos (s1.restore s.pos)

/-- The `while (state.matchLiteral(", "))` item loop shared by the SELECT,
GROUP BY and ORDER BY clauses: when the item after a consumed `", "` fails,
the loop breaks without rolling the separator back, exactly as the source
does. The fuel argument only bounds recursion; each iteration consumes at
least three characters, so the call sites' fuel is never exhausted. -/
def commaItemsLoop
    (item : ParseState → Option GrammarDerivationNode × ParseState) :
    Nat → ParseState → List GrammarDerivationNode →
    List GrammarDerivationNode × ParseState
  | 0, s, acc => (acc, s)
  | fuel + 1, s, acc =>
    match s.matchLiteral (cs ", ") with
    | (false, s1) => (acc, s1)
    | (true, s1) =>
      match item s1 with
      | (none, s2) => (acc, s2)
      | (some n, s2) => commaItemsLoop item fuel s2 (acc ++ [n])

/-- SELECT clause: `"SELECT "` followed by a comma-separated item list
(`parseSelectClause`). -/
def parseSelectClause (s : ParseState) :
    Option GrammarDerivationNode × ParseState :=
  match s.matchLiteral (cs "SELECT ") with
  | (false, s1) => (none, s1.restore s.pos)
  | (true, s1) =>
    match parseSelectItem s1 with
    | (none, s2) => (none, s2.restore s.pos)
    | (some first, s2) =>
      match commaItemsLoop parseSelectItem (s2.input.length + 1) s2 [first] with
      | (items, s3) =>
        (some (node "select_clause"
          (cs "SELECT " ++ joinSep (cs ", ") (items.map (·.matchedText)))
          items), s3)

/-- FROM clause: the fixed literal (`parseFromClause`); note the matched
text has no leading space, as in the source. -/
def parseFromClause (s : ParseState) :
    Option GrammarDerivationNode × ParseState :=
  match s.matchLiteral (cs " FROM github_events") with
  | (true, s1) => (some (node "from_clause" (cs "FROM github_events") []), s1)
  | (false, s1) => (none, s1)

/-- String condition, `col = 'value'` attempt (`parseStringCondition`). -/
def strCondTryEq (col : List Char) (s : ParseState) :
    Option GrammarDerivationNode × ParseState :=
  match s.matchLiteral (col ++ cs " = '") with
  | (false, s1) => (none, s1)
  | (true, s1) =>
    match parseStringValue s1 with
    | (none, s2) => (none, s2)
    | (some val, s2) =>
      match s2.matchLiteral (cs "'") with
      | (false, s3) => (none, s3)
      | (true, s3) =>
        (some (node "string_condition"
          (col ++ cs " = '" ++ val.matchedText ++ cs "'")
          [node "string_col" col [], val]), s3)

/-- String condition, `col LIKE '%value%'` attempt. -/
def strCondTryLike (col : List Char) (s : ParseState) :
    Option GrammarDerivationNode × ParseState :=
  match s.matchLiteral (col ++ cs " LIKE '%") with
  | (false, s1) => (none, s1)
  | (true, s1) =>
    match parseStringValue s1 with
    | (none, s2) => (none, s2)
    | (some val, s2) =>
      match s2.matchLiteral (cs "%'") with
      | (false, s3) => (none, s3)
      | (true, s3) =>
        (some (node "string_condition"
          (col ++ cs " LIKE '%" ++ val.matchedText ++ cs "%'")
          [node "string_col" col [], val]), s3)

/-- The `while (state.matchLiteral(", '"))` extra-value loop of the IN list
parsers; a failing element breaks without rollback, as in the source. -/
def stringListLoop :
    Nat → ParseState → List GrammarDerivationNode →
    List GrammarDerivationNode × ParseState
  | 0, s, acc => (acc, s)
  | fuel + 1, s, acc =>
    match s.matchLiteral (cs ", '") with
    | (false, s1) => (acc, s1)
    | (true, s1) =>
      match parseStringValue s1 with
      | (none, s2) => (acc, s2)
      | (some v, s2) =>
        match s2.matchLiteral (cs "'") with
        | (false, s3) => (acc, s3)
        | (true, s3) => stringListLoop fuel s3 (acc ++ [v])

/-- Collect the quoted values of an IN list: first `'value'`, then the
comma loop; on any failure the collected values so far are returned with
the state wherever the failure left it. -/
def inValues (s : ParseState) :
    List GrammarDerivationNode × ParseState :=
  match s.matchLiteral (cs "'") with
  | (false, s1) => ([], s1)
  | (true, s1) =>
    match parseStringValue s1 with
    | (none, s2) => ([], s2)
    | (some v, s2) =>
      match s2.matchLiteral (cs "'") with
      | (false, s3) => ([], s3)
      | (true, s3) => stringListLoop (s3.input.length + 1) s3 [v]

/-- String condition, `col IN ('v1', 'v2', ...)` attempt. -/
def strCondTryIn (col : List Char) (s : ParseState) :
    Option GrammarDerivationNode × ParseState :=
  match s.matchLiteral (col ++ cs " IN (") with
  | (false, s1) => (none, s1)
  | (true, s1) =>
    match inValues s1 with
    | (values, s2) =>
      match s2.matchLiteral (cs ")") with
      | (false, s3) => (none, s3)
      | (true, s3) =>
        if 0 < values.length then
          (some (node "string_condition"
            (col ++ cs " IN (" ++
              joinSep (cs ", ")
                (values.map (fun v => cs "'" ++ v.matchedText ++ cs "'")) ++
              cs ")")
            (node "string_col" col [] :: values)), s3)
        else (none, s3)

/-- Per-column loop of `parseStringCondition`: restore, try `= '`, restore,
try `LIKE '%`, restore, try `IN (`, restore, next column. -/
def strCondLoop (saved : Nat) :
    List (List Char) → ParseState → Option GrammarDerivationNode × ParseState
  | [], s => (none, s)
  | col :: rest, s =>
    match strCondTryEq col (s.restore saved) with
    | (some n, s1) => (some n, s1)
    | (none, s1) =>
      match strCondTryLike col (s1.restore saved) with
      | (some n, s2) => (some n, s2)
      | (none, s2) =>
        match strCondTryIn col (s2.restore saved) with
        | (some n, s3) => (some n, s3)
        | (none, s3) => strCondLoop saved rest (s3.restore saved)

/-- String condition over the length-sorted string columns
(`parseStringCondition`). -/
def parseStringCondition (s : ParseState) :
    Option GrammarDerivationNode × ParseState :=
  strCondLoop s.pos (sortDescLen STRING_COLS) s

/-- Per-column loop of `parseNumericCondition`; after the loop the cursor
is restored and null returned. -/
def numCondLoop (saved : Nat) :
    List (List Char) → ParseState → Option GrammarDerivationNode × ParseState
  | [], s => (none, s.restore saved)
  | col :: rest, s =>
    match (s.restore saved).matchLiteral (col ++ cs " ") with
    | (false, s1) => numCondLoop saved rest s1
    | (true, s1) =>
      match parseCompareOp s1 with
      | (none, s2) => numCondLoop saved rest s2
      | (some op, s2) =>
        match s2.matchLiteral (cs " ") with
        | (false, s3) => numCondLoop saved rest s3
        | (true, s3) =>
          match parseNumber s3 with
          | (none, s4) => numCondLoop saved rest s4
          | (some num, s4) =>
            (some (node "numeric_condition"
              (col ++ cs " " ++ op.matchedText ++ cs " " ++ num.matchedText)
              [node "numeric_col" col [], op, num]), s4)

/-- Numeric condition over the length-sorted numeric columns
(`parseNumericCondition`). -/
def parseNumericCondition (s : ParseState) :
    Option GrammarDerivationNode × ParseState :=
  numCondLoop s.pos (sortDescLen NUMERIC_COLS) s

/-- Time-unit loop of the INTERVAL branch of `parseDatetimeCondition`. -/
def dtUnitLoop (num : GrammarDerivationNode) :
    List (List Char) → ParseState → Option GrammarDerivationNode × ParseState
  | [], s => (none, s)
  | u :: rest, s =>
    match s.matchLiteral u with
    | (true, s1) =>
      (some (node "datetime_condition"
        (cs "created_at >= now() - INTERVAL " ++ num.matchedText ++ cs " " ++ u)
        [num, node "time_unit" u []]), s1)
    | (false, s1) => dtUnitLoop num rest s1

/-- Second branch of `parseDatetimeCondition`:
`created_at BETWEEN 'date' AND 'date'`; every failure path ends in the
final restore-and-return-null of the source. -/
def dtBetween (saved : Nat) (s : ParseState) :
    Option GrammarDerivationNode × ParseState :=
  match s.matchLiteral (cs "created_at BETWEEN '") with
  | (false, s1) => (none, s1.restore saved)
  | (true, s1) =>
    match parseDateLiteral s1 with
    | (none, s2) => (none, s2.restore saved)
    | (some d1, s2) =>
      match s2.matchLiteral (cs "' AND '") with
      | (false, s3) => (none, s3.restore saved)
      | (true, s3) =>
        match parseDateLiteral s3 with
        | (none, s4) => (none, s4.restore saved)
        | (some d2, s4) =>
          match s4.matchLiteral (cs "'") with
          | (false, s5) => (none, s5.restore saved)
          | (true, s5) =>
            (some (node "datetime_condition"
              (cs "created_at BETWEEN '" ++ d1.matchedText ++ cs "' AND '" ++
                d2.matchedText ++ cs "'") [d1, d2]), s5)

/-- Datetime condition: the INTERVAL branch, then (after restoring) the
BETWEEN branch (`parseDatetimeCondition`). -/
def parseDatetimeCondition (s : ParseState) :
    Option GrammarDerivationNode × ParseState :=
  match s.matchLiteral (cs "created_at >= now() - INTERVAL ") with
  | (false, s1) => dtBetween s.pos (s1.restore s.pos)
  | (true, s1) =>
    match parseNumber s1 with
    | (none, s2) => dtBetween s.pos (s2.restore s.pos)
    | (some num, s2) =>
      match s2.matchLiteral (cs " ") with
      | (false, s3) => dtBetween s.pos (s3.restore s.pos)
      | (true, s3) =>
        match dtUnitLoop num TIME_UNITS s3 with
        | (some n, s4) => (some n, s4)
        | (none, s4) => dtBetween s.pos (s4.restore s.pos)

/-- Enum condition, `type = 'EventType'` attempt (`parseEnumCondition`). -/
def enumCondTryTypeEq (s : ParseState) :
    Option GrammarDerivationNode × ParseState :=
  match s.matchLiteral (cs "type = '") with
  | (false, s1) => (none, s1)
  | (true, s1) =>
    match parseStringValue s1 with
    | (none, s2) => (none, s2)
    | (some val, s2) =>
      match s2.matchLiteral (cs "'") with
      | (false, s3) => (none, s3)
      | (true, s3) =>
        (some (node "enum_condition" (cs "type = '" ++ val.matchedText ++ cs "'")
          [val]), s3)

/-- Enum condition, `type IN (...)` attempt. -/
def enumCondTryTypeIn (s : ParseState) :
    Option GrammarDerivationNode × ParseState :=
  match s.matchLiteral (cs "type IN (") with
  | (false, s1) => (none, s1)
  | (true, s1) =>
    match inValues s1 with
    | (values, s2) =>
      match s2.matchLiteral (cs ")") with
      | (false, s3) => (none, s3)
      | (true, s3) =>
        if 0 < values.length then
          (some (node "enum_condition"
            (cs "type IN (" ++
              joinSep (cs ", ")
                (values.map (fun v => cs "'" ++ v.matchedText ++ cs "'")) ++
              cs ")") values), s3)
        else (none, s3)

/-- Enum condition, `action = 'value'` attempt. -/
def enumCondTryAction (s : ParseState) :
    Option GrammarDerivationNode × ParseState :=
  match s.matchLiteral (cs "action = '") with
  | (false, s1) => (none, s1)
  | (true, s1) =>
    match parseStringValue s1 with
    | (none, s2) => (none, s2)
    | (some val, s2) =>
      match s2.matchLiteral (cs "'") with
      | (false, s3) => (none, s3)
      | (true, s3) =>
        (some (node "enum_condition"
          (cs "action = '" ++ val.matchedText ++ cs "'") [val]), s3)

/-- Enum condition: `type = '...'`, `type IN (...)`, `action = '...'`, each
attempt separated by a restore (`parseEnumCondition`). -/
def parseEnumCondition (s : ParseState) :
    Option GrammarDerivationNode × ParseState :=
  match enumCondTryTypeEq s with
  | (some n, s1) => (some n, s1)
  | (none, s1) =>
    match enumCondTryTypeIn (s1.restore s.pos) with
    | (some n, s2) => (some n, s2)
    | (none, s2) =>
      match enumCondTryAction (s2.restore s.pos) with
      | (some n, s3) => (some n, s3)
      | (none, s3) => (none, s3.restore s.pos)

/-- Condition: datetime, then enum, then string, then numeric
(`parseCondition`; the `??` chain threads the same mutable state). -/
def parseCondition (s : ParseState) :
    Option GrammarDerivationNode × ParseState :=
  match parseDatetimeCondition s with
  | (some n, s1) => (some n, s1)
  | (none, s1) =>
    match parseEnumCondition s1 with
    | (some n, s2) => (some n, s2)
    | (none, s2) =>
      match parseStringCondition s2 with
      | (some n, s3) => (some n, s3)
      | (none, s3) => parseNumericCondition s3

/-- The `while (state.matchLiteral(" AND "))` loop of `parseWhereClause`;
a failing condition breaks without rolling the separator back. -/
def andCondLoop :
    Nat → ParseState → List GrammarDerivationNode →
    List GrammarDerivationNode × ParseState
  | 0, s, acc => (acc, s)
  | fuel + 1, s, acc =>
    match s.matchLiteral (cs " AND ") with
    | (false, s1) => (acc, s1)
    | (true, s1) =>
      match parseCondition s1 with
      | (none, s2) => (acc, s2)
      | (some n, s2) => andCondLoop fuel s2 (acc ++ [n])

/-- WHERE clause: `" WHERE "` plus an AND-joined condition list
(`parseWhereClause`). -/
def parseWhereClause (s : ParseState) :
    Option GrammarDerivationNode × ParseState :=
  match s.matchLiteral (cs " WHERE ") with
  | (false, s1) => (none, s1.restore s.pos)
  | (true, s1) =>
    match parseCondition s1 with
    | (none, s2) => (none, s2.restore s.pos)
    | (some first, s2) =>
      match andCondLoop (s2.input.length + 1) s2 [first] with
      | (conditions, s3) =>
        (some (node "where_clause"
          (cs "WHERE " ++ joinSep (cs " AND ") (conditions.map (·.matchedText)))
          conditions), s3)

/-- Group item: date-truncation expression, then column reference, then
alias-like identifier (`parseGroupItem`). -/
def parseGroupItem (s : ParseState) :
    Option GrammarDerivationNode × ParseState :=
  match parseDateTruncExpr s with
  | (some dtExpr, s1) => (some (node "group_item" dtExpr.matchedText [dtExpr]), s1)
  | (none, s1) =>
    match parseColumnRef s1 with
    | (some colRef, s2) =>
      (some (node "group_item" colRef.matchedText [colRef]), s2)
    | (none, s2) =>
      match parseAlias s2 with
      | (some al, s3) => (some (node "group_item" al.matchedText [al]), s3)
      | (none, s3) => (none, s3)

/-- GROUP BY clause (`parseGroupClause`). -/
def parseGroupClause (s : ParseState) :
    Option GrammarDerivationNode × ParseState :=
  match s.matchLiteral (cs " GROUP BY ") with
  | (false, s1) => (none, s1.restore s.pos)
  | (true, s1) =>
    match parseGroupItem s1 with
    | (none, s2) => (none, s2.restore s.pos)
    | (some first, s2) =>
      match commaItemsLoop parseGroupItem (s2.input.length + 1) s2 [first] with
      | (items, s3) =>
        (some (node "group_clause"
          (cs "GROUP BY " ++ joinSep (cs ", ") (items.map (·.matchedText)))
          items), s3)

/-- HAVING clause: `" HAVING " agg_expr " " compare_op " " number`
(`parseHavingClause`). -/
def parseHavingClause (s : ParseState) :
    Option GrammarDerivationNode × ParseState :=
  match s.matchLiteral (cs " HAVING ") with
  | (false, s1) => (none, s1.restore s.pos)
  | (true, s1) =>
    match parseAggExpr s1 with
    | (none, s2) => (none, s2.restore s.pos)
    | (some aggExpr, s2) =>
      match s2.matchLiteral (cs " ") with
      | (false, s3) => (none, s3.restore s.pos)
      | (true, s3) =>
        match parseCompareOp s3 with
        | (none, s4) => (none, s4.restore s.pos)
        | (some op, s4) =>
          match s4.matchLiteral (cs " ") with
          | (false, s5) => (none, s5.restore s.pos)
          | (true, s5) =>
            match parseNumber s5 with
            | (none, s6) => (none, s6.restore s.pos)
            | (some num, s6) =>
              (some (node "having_clause"
                (cs "HAVING " ++ aggExpr.matchedText ++ cs " " ++
                  op.matchedText ++ cs " " ++ num.matchedText)
                [aggExpr, op, num]), s6)

/-- Optional ` DESC` / ` ASC` suffix of an order item. -/
def orderItemFinish (base : GrammarDerivationNode) (s : ParseState) :
    Option GrammarDerivationNode × ParseState :=
  match s.matchLiteral (cs " DESC") with
  | (true, s1) =>
    (some (node "order_item" (base.matchedText ++ cs " DESC")
      [base, node "direction" (cs "DESC") []]), s1)
  | (false, s1) =>
    match s1.matchLiteral (cs " ASC") with
    | (true, s2) =>
      (some (node "order_item" (base.matchedText ++ cs " ASC")
        [base, node "direction" (cs "ASC") []]), s2)
    | (false, s2) => (some (node "order_item" base.matchedText [base]), s2)

/-- Order item: aggregate expression, then column reference, then alias,
each optionally followed by a direction (`parseOrderItem`). -/
def parseOrderItem (s : ParseState) :
    Option GrammarDerivationNode × ParseState :=
  match parseAggExpr s with
  | (some base, s1) => orderItemFinish base s1
  | (none, s1) =>
    match parseColumnRef s1 with
    | (some base, s2) => orderItemFinish base s2
    | (none, s2) =>
      match parseAlias s2 with
      | (some base, s3) => orderItemFinish base s3
      | (none, s3) => (none, s3.restore s.pos)

/-- ORDER BY clause (`parseOrderClause`). -/
def parseOrderClause (s : ParseState) :
    Option GrammarDerivationNode × ParseState :=
  match s.matchLiteral (cs " ORDER BY ") with
  | (false, s1) => (none, s1.restore s.pos)
  | (true, s1) =>
    match parseOrderItem s1 with
    | (none, s2) => (none, s2.restore s.pos)
    | (some first, s2) =>
      match commaItemsLoop parseOrderItem (s2.input.length + 1) s2 [first] with
      | (items, s3) =>
        (some (node "order_clause"
          (cs "ORDER BY " ++ joinSep (cs ", ") (items.map (·.matchedText)))
          items), s3)

/-- LIMIT clause: `" LIMIT " number` (`parseLimitClause`). -/
def parseLimitClause (s : ParseState) :
    Option GrammarDerivationNode × ParseState :=
  match s.matchLiteral (cs " LIMIT ") with
  | (false, s1) => (none, s1.restore s.pos)
  | (true, s1) =>
    match parseNumber s1 with
    | (none, s2) => (none, s2.restore s.pos)
    | (some num, s2) =>
      (some (node "limit_clause" (cs "LIMIT " ++ num.matchedText) [num]), s2)

/-- Top-level parse (`parseQuery`): trim the input, require SELECT and
FROM, take each optional clause if it matches, and tag the root `"query"`
when the whole input was consumed and `"query (partial)"` otherwise; the
root `matchedText` is the original (untrimmed) `sql` argument in both
cases, as in the source. -/
def parseQuery (sql : List Char) : Option GrammarDerivationNode :=
  match parseSelectClause ⟨trimL sql, 0⟩ with
  | (none, _) => none
  | (some selectClause, s1) =>
    match parseFromClause s1 with
    | (none, _) => none
    | (some fromClause, s2) =>
      match parseWhereClause s2 with
      | (whereClause?, s3) =>
        match parseGroupClause s3 with
        | (groupClause?, s4) =>
          match parseHavingClause s4 with
          | (havingClause?, s5) =>
            match parseOrderClause s5 with
            | (orderClause?, s6) =>
              match parseLimitClause s6 with
              | (limitClause?, s7) =>
                if s7.isAtEnd then
                  some (node "query" sql
                    ([selectClause, fromClause] ++ whereClause?.toList ++
                      groupClause?.toList ++ havingClause?.toList ++
                      orderClause?.toList ++ limitClause?.toList))
                else
                  some (node "query (partial)" sql
                    ([selectClause, fromClause] ++ whereClause?.toList ++
                      groupClause?.toList ++ havingClause?.toList ++
                      orderClause?.toList ++ limitClause?.toList))

/-- Membership test (`isValidGrammarSQL`): a non-null result whose rule is
exactly `"query"`. -/
def isValidGrammarSQL (sql : List Char) : Bool :=
  match parseQuery sql with
  | some result => result.rule == "query"
  | none => false

/-
Grammar builder (src/lib/cfg/grammar-builder.ts) and the grammar template
(grammar-template.ts). Brace characters inside string literals are written
with their hexadecimal escapes.
-/

/-- Column description supplied by the schema registry (`ColumnInfo`). -/
structure ColumnInfo where
  name : String
  type : String
  enumValues : Option (List String)

/-- Table schema (`TableSchema`). -/
structure TableSchema where
  tableName : String
  columns : List ColumnInfo

/-- String-category test on a ClickHouse type string (`isStringType`). -/
def isStringType (t : String) : Bool :=
  t.toList == cs "String" || startsWithL (cs "LowCardinality(String") t.toList ||
    startsWithL (cs "Nullable(String") t.toList

/-- Numeric-category test (`isNumericType`). -/
def isNumericType (t : String) : Bool :=
  startsWithL (cs "UInt") t.toList || startsWithL (cs "Int") t.toList ||
    startsWithL (cs "Float") t.toList || startsWithL (cs "Decimal") t.toList

/-- Datetime-category test (`isDateTimeType`). -/
def isDateTimeType (t : String) : Bool :=
  t.toList == cs "DateTime" || t.toList == cs "Date" ||
    startsWithL (cs "DateTime64") t.toList

/-- Enum-category test of `classifyColumns`: `enumValues` present and
non-empty. -/
def colIsEnum (c : ColumnInfo) : Bool :=
  match c.enumValues with
  | some vs => 0 < vs.length
  | none => false

/-- Known event types fallback list (`KNOWN_EVENT_TYPES`). -/
def KNOWN_EVENT_TYPES : List String :=
  ["CommitCommentEvent", "CreateEvent", "DeleteEvent", "ForkEvent",
   "GollumEvent", "IssueCommentEvent", "IssuesEvent", "MemberEvent",
   "PublicEvent", "PullRequestEvent", "PullRequestReviewCommentEvent",
   "PullRequestReviewEvent", "PushEvent", "ReleaseEvent", "SponsorshipEvent",
   "WatchEvent"]

/-- Known action values (`KNOWN_ACTION_VALUES`). -/
def KNOWN_ACTION_VALUES : List String :=
  ["opened", "closed", "reopened", "created", "edited", "deleted", "added",
   "removed", "published"]

/-
The classifyColumns loop dispatches each column through the guard chain
enum, then datetime, then string, then numeric, appending its name to the
first bucket whose guard holds. The buckets accumulate independently, so
each bucket equals a filter of the column list under its guard chain; the
definitions below state each bucket that way.
-/

/-- The `allCols` bucket of `classifyColumns`. -/
def allColsOf (schema : TableSchema) : List String :=
  schema.columns.map (·.name)

/-- The `enumCols` bucket of `classifyColumns` (name and values). -/
def enumColsOf (schema : TableSchema) : List (String × List String) :=
  (schema.columns.filter colIsEnum).map (fun c => (c.name, c.enumValues.getD []))

/-- The `dateTimeCols` bucket of `classifyColumns`. -/
def dateTimeColsOf (schema : TableSchema) : List String :=
  (schema.columns.filter (fun c => !colIsEnum c && isDateTimeType c.type)).map
    (·.name)

/-- The `stringCols` bucket of `classifyColumns`. -/
def stringColsOf (schema : TableSchema) : List String :=
  (schema.columns.filter
    (fun c => !colIsEnum c && !isDateTimeType c.type && isStringType c.type)).map
    (·.name)

/-- The `numericCols` bucket of `classifyColumns`. -/
def numericColsOf (schema : TableSchema) : List String :=
  (schema.columns.filter
    (fun c => !colIsEnum c && !isDateTimeType c.type && !isStringType c.type &&
      isNumericType c.type)).map (·.name)

/-- Render a value list as a Lark alternation of double-quoted literals
(`toLarkAlternatives`). -/
def toLarkAlternatives (values : List String) : List Char :=
  joinSep (cs " | ") (values.map (fun v => cs "\"" ++ v.toList ++ cs "\""))

/-- The deduplicated union of queryable column names used for the
`column_ref` rule in `buildGrammar`. -/
def uniqueColumnRefOf (schema : TableSchema) : List String :=
  dedupFirst
    ((stringColsOf schema ++ numericColsOf schema ++ dateTimeColsOf schema ++
      (enumColsOf schema).map (·.1)).filter
      (fun c => (allColsOf schema).contains c))

/-- The event types resolved by `buildGrammar`: values of an enum column
named `type` if present, otherwise the fixed fallback list. -/
def eventTypesOf (schema : TableSchema) : List String :=
  (((enumColsOf schema).find? (fun e => e.1 == "type")).map (·.2)).getD
    KNOWN_EVENT_TYPES

/-- Replacement text for the STRING_COLS placeholder, with the empty-bucket
fallback literal of `buildGrammar`. -/
def stringColsPayload (schema : TableSchema) : List Char :=
  if 0 < (stringColsOf schema).length then toLarkAlternatives (stringColsOf schema)
  else cs "\"actor_login\""

/-- Replacement text for the NUMERIC_COLS placeholder. -/
def numericColsPayload (schema : TableSchema) : List Char :=
  if 0 < (numericColsOf schema).length then
    toLarkAlternatives (numericColsOf schema)
  else cs "\"id\""

/-- Replacement text for the COLUMN_REF placeholder. -/
def columnRefPayload (schema : TableSchema) : List Char :=
  if 0 < (uniqueColumnRefOf schema).length then
    toLarkAlternatives (uniqueColumnRefOf schema)
  else cs "\"id\""

/-
The grammar template text (GRAMMAR_TEMPLATE of grammar-template.ts),
written as the seven literal chunks that surround its six placeholder
tokens, in source order. Concatenating the chunks with the placeholders
reproduces the template text verbatim (brace characters appear as
hexadecimal escapes).
-/

/-- Template text before the TABLE_NAME placeholder. -/
def tmplChunk0 : List Char :=
  cs "// Parsec ClickHouse SQL Grammar (Lark)\n" ++
  cs "// Generates read-only SELECT queries against a single table.\n" ++
  cs "\n" ++
  cs "start: select_clause from_clause where_clause? group_clause? having_clause? order_clause? limit_clause?\n" ++
  cs "\n" ++
  cs "// ── SELECT ──────────────────────────────────────────────────\n" ++
  cs "\n" ++
  cs "select_clause: \"SELECT \" select_list\n" ++
  cs "select_list: select_item (\", \" select_item)*\n" ++
  cs "select_item: agg_expr \" AS \" ALIAS\n" ++
  cs "           | date_trunc_expr \" AS \" ALIAS\n" ++
  cs "           | column_ref\n" ++
  cs "\n" ++
  cs "// ── Aggregation ─────────────────────────────────────────────\n" ++
  cs "\n" ++
  cs "agg_expr: agg_func \"(\" column_ref? \")\"\n" ++
  cs "agg_func: \"count\" | \"sum\" | \"avg\" | \"min\" | \"max\" | \"uniq\" | \"uniqExact\"\n" ++
  cs "\n" ++
  cs "// ── Date truncation ─────────────────────────────────────────\n" ++
  cs "\n" ++
  cs "date_trunc_expr: \"toStartOfHour(created_at)\"\n" ++
  cs "               | \"toStartOfDay(created_at)\"\n" ++
  cs "               | \"toStartOfWeek(created_at)\"\n" ++
  cs "               | \"toStartOfMonth(created_at)\"\n" ++
  cs "               | \"toDate(created_at)\"\n" ++
  cs "\n" ++
  cs "// ── FROM ────────────────────────────────────────────────────\n" ++
  cs "\n" ++
  cs "from_clause: \" FROM "

/-- Template text between the TABLE_NAME and STRING_COLS placeholders. -/
def tmplChunk1 : List Char :=
  cs "\"\n" ++
  cs "\n" ++
  cs "// ── WHERE ───────────────────────────────────────────────────\n" ++
  cs "\n" ++
  cs "where_clause: \" WHERE \" condition (\" AND \" condition)*\n" ++
  cs "condition: string_condition | numeric_condition | datetime_condition | enum_condition\n" ++
  cs "\n" ++
  cs "string_condition: string_col \" = '\" STRING_VALUE \"'\"\n" ++
  cs "                | string_col \" LIKE '%\" STRING_VALUE \"%'\"\n" ++
  cs "                | string_col \" IN (\" string_list \")\"\n" ++
  cs "\n" ++
  cs "numeric_condition: numeric_col \" \" compare_op \" \" NUMBER\n" ++
  cs "\n" ++
  cs "datetime_condition: \"created_at >= now() - INTERVAL \" NUMBER \" \" time_unit\n" ++
  cs "                  | \"created_at BETWEEN '\" DATE_LITERAL \"' AND '\" DATE_LITERAL \"'\"\n" ++
  cs "\n" ++
  cs "enum_condition: \"type = '\" event_type \"'\"\n" ++
  cs "              | \"type IN (\" event_type_list \")\"\n" ++
  cs "              | \"action = '\" action_value \"'\"\n" ++
  cs "\n" ++
  cs "// ── GROUP BY ────────────────────────────────────────────────\n" ++
  cs "\n" ++
  cs "group_clause: \" GROUP BY \" group_list\n" ++
  cs "group_list: group_item (\", \" group_item)*\n" ++
  cs "group_item: column_ref | date_trunc_expr\n" ++
  cs "\n" ++
  cs "// ── HAVING ──────────────────────────────────────────────────\n" ++
  cs "\n" ++
  cs "having_clause: \" HAVING \" agg_expr \" \" compare_op \" \" NUMBER\n" ++
  cs "\n" ++
  cs "// ── ORDER BY ────────────────────────────────────────────────\n" ++
  cs "\n" ++
  cs "order_clause: \" ORDER BY \" order_list\n" ++
  cs "order_list: order_item (\", \" order_item)*\n" ++
  cs "order_item: order_expr order_dir?\n" ++
  cs "order_expr: column_ref | ALIAS | agg_expr\n" ++
  cs "order_dir: \" ASC\" | \" DESC\"\n" ++
  cs "\n" ++
  cs "// ── LIMIT ───────────────────────────────────────────────────\n" ++
  cs "\n" ++
  cs "limit_clause: \" LIMIT \" NUMBER\n" ++
  cs "\n" ++
  cs "// ── Operators ───────────────────────────────────────────────\n" ++
  cs "\n" ++
  cs "compare_op: \"!=\" | \">=\" | \"<=\" | \"=\" | \">\" | \"<\"\n" ++
  cs "time_unit: \"HOUR\" | \"DAY\" | \"WEEK\" | \"MONTH\"\n" ++
  cs "\n" ++
  cs "// ── Schema-derived rules (injected by grammar builder) ──────\n" ++
  cs "\n" ++
  cs "string_col: "

/-- Template text between the STRING_COLS and NUMERIC_COLS placeholders. -/
def tmplChunk2 : List Char :=
  cs "\n" ++
  cs "numeric_col: "

/-- Template text between the NUMERIC_COLS and COLUMN_REF placeholders. -/
def tmplChunk3 : List Char :=
  cs "\n" ++
  cs "column_ref: "

/-- Template text between the COLUMN_REF and EVENT_TYPES placeholders. -/
def tmplChunk4 : List Char :=
  cs "\n" ++
  cs "\n" ++
  cs "event_type: "

/-- Template text between the EVENT_TYPES and ACTION_VALUES placeholders. -/
def tmplChunk5 : List Char :=
  cs "\n" ++
  cs "action_value: "

/-- Template text after the ACTION_VALUES placeholder. -/
def tmplChunk6 : List Char :=
  cs "\n" ++
  cs "\n" ++
  cs "event_type_list: \"'\" event_type \"'\" (\", '\" event_type \"'\")*\n" ++
  cs "string_list: \"'\" STRING_VALUE \"'\" (\", '\" STRING_VALUE \"'\")*\n" ++
  cs "\n" ++
  cs "// ── Terminals (regex, matched by lexer) ─────────────────────\n" ++
  cs "\n" ++
  cs "ALIAS: /[a-z_][a-z0-9_]\x7b0,29\x7d/\n" ++
  cs "STRING_VALUE: /[a-zA-Z0-9_.\\-\\/]\x7b1,100\x7d/\n" ++
  cs "DATE_LITERAL: /[0-9]\x7b4\x7d-[0-9]\x7b2\x7d-[0-9]\x7b2\x7d/\n" ++
  cs "NUMBER: /[0-9]\x7b1,6\x7d/"

/-- The complete grammar template string (`GRAMMAR_TEMPLATE`), already
trimmed as in the source. -/
def GRAMMAR_TEMPLATE : List Char :=
  tmplChunk0 ++ cs "\x7b\x7bTABLE_NAME\x7d\x7d" ++
  tmplChunk1 ++ cs "\x7b\x7bSTRING_COLS\x7d\x7d" ++
  tmplChunk2 ++ cs "\x7b\x7bNUMERIC_COLS\x7d\x7d" ++
  tmplChunk3 ++ cs "\x7b\x7bCOLUMN_REF\x7d\x7d" ++
  tmplChunk4 ++ cs "\x7b\x7bEVENT_TYPES\x7d\x7d" ++
  tmplChunk5 ++ cs "\x7b\x7bACTION_VALUES\x7d\x7d" ++
  tmplChunk6

/-- Build the complete Lark grammar from a table schema (`buildGrammar`):
six first-occurrence replacements applied in the source's order. -/
def buildGrammar (schema : TableSchema) : List Char :=
  replaceFirst
    (replaceFirst
      (replaceFirst
        (replaceFirst
          (replaceFirst
            (replaceFirst GRAMMAR_TEMPLATE
              (cs "\x7b\x7bTABLE_NAME\x7d\x7d") schema.tableName.toList)
            (cs "\x7b\x7bSTRING_COLS\x7d\x7d") (stringColsPayload schema))
          (cs "\x7b\x7bNUMERIC_COLS\x7d\x7d") (numericColsPayload schema))
        (cs "\x7b\x7bCOLUMN_REF\x7d\x7d") (columnRefPayload schema))
      (cs "\x7b\x7bEVENT_TYPES\x7d\x7d") (toLarkAlternatives (eventTypesOf schema)))
    (cs "\x7b\x7bACTION_VALUES\x7d\x7d") (toLarkAlternatives KNOWN_ACTION_VALUES)

/-
Derivability in the materialized Lark grammar. The following predicates
transcribe, production by production, the grammar text that buildGrammar
emits for the default github_events schema — the schema whose column
categories coincide with the verifier's hard-coded lists, so the
schema-derived alternations are exactly STRING_COLS, NUMERIC_COLS,
KNOWN_COLUMNS, KNOWN_EVENT_TYPES and KNOWN_ACTION_VALUES, and the table
name is github_events. A string s satisfies `LStart s` precisely when it
is derivable from the grammar's `start` rule: each rule predicate holds of
exactly the concatenations its alternatives produce, and starred
repetitions `item (sep item)*` are expressed with `sepList`.
-/

/-- Derivations of `item (sep item)*`: one or more derivable items joined
by the literal separator. -/
def sepList (P : List Char → Prop) (sep : List Char) (s : List Char) : Prop :=
  ∃ items : List (List Char), items ≠ [] ∧ (∀ i ∈ items, P i) ∧
    s = joinSep sep items

/-- An optional rule occurrence: absent (empty string) or derivable. -/
def LOpt (P : List Char → Prop) (s : List Char) : Prop := s = [] ∨ P s

/-- Lark terminal ALIAS. -/
def LAlias (s : List Char) : Prop :=
  ∃ c rest, s = c :: rest ∧ isAliasHead c = true ∧ rest.length ≤ 29 ∧
    ∀ x ∈ rest, isAliasTail x = true

/-- Lark terminal STRING_VALUE. -/
def LStringValue (s : List Char) : Prop :=
  1 ≤ s.length ∧ s.length ≤ 100 ∧ ∀ c ∈ s, isStringValueChar c = true

/-- Lark terminal DATE_LITERAL. -/
def LDateLiteral (s : List Char) : Prop :=
  ∃ a b c d e f g h, s = [a, b, c, d, '-', e, f, '-', g, h] ∧
    isDigitC a = true ∧ isDigitC b = true ∧ isDigitC c = true ∧
    isDigitC d = true ∧ isDigitC e = true ∧ isDigitC f = true ∧
    isDigitC g = true ∧ isDigitC h = true

/-- Lark terminal NUMBER. -/
def LNumber (s : List Char) : Prop :=
  1 ≤ s.length ∧ s.length ≤ 6 ∧ ∀ c ∈ s, isDigitC c = true

/-- Rule `string_col` of the materialized grammar. -/
def LStringCol (s : List Char) : Prop := s ∈ STRING_COLS

/-- Rule `numeric_col`. -/
def LNumericCol (s : List Char) : Prop := s ∈ NUMERIC_COLS

/-- Rule `column_ref`. -/
def LColumnRef (s : List Char) : Prop := s ∈ KNOWN_COLUMNS

/-- Rule `event_type`. -/
def LEventType (s : List Char) : Prop := s ∈ KNOWN_EVENT_TYPES.map (·.toList)

/-- Rule `action_value`. -/
def LActionValue (s : List Char) : Prop := s ∈ KNOWN_ACTION_VALUES.map (·.toList)

/-- Rule `agg_func`. -/
def LAggFunc (s : List Char) : Prop := s ∈ AGG_FUNCS

/-- Rule `date_trunc_expr`. -/
def LDateTruncExpr (s : List Char) : Prop := s ∈ DATE_TRUNC_EXPRS

/-- Rule `compare_op`. -/
def LCompareOp (s : List Char) : Prop := s ∈ COMPARE_OPS

/-- Rule `time_unit`. -/
def LTimeUnit (s : List Char) : Prop := s ∈ TIME_UNITS

/-- Rule `agg_expr: agg_func "(" column_ref? ")"`. -/
def LAggExpr (s : List Char) : Prop :=
  ∃ f, LAggFunc f ∧
    (s = f ++ cs "()" ∨ ∃ c, LColumnRef c ∧ s = f ++ cs "(" ++ c ++ cs ")")

/-- Rule `select_item`. -/
def LSelectItem (s : List Char) : Prop :=
  (∃ a al, LAggExpr a ∧ LAlias al ∧ s = a ++ cs " AS " ++ al) ∨
  (∃ d al, LDateTruncExpr d ∧ LAlias al ∧ s = d ++ cs " AS " ++ al) ∨
  LColumnRef s

/-- Rule `select_clause: "SELECT " select_list`. -/
def LSelectClause (s : List Char) : Prop :=
  ∃ l, sepList LSelectItem (cs ", ") l ∧ s = cs "SELECT " ++ l

/-- Rule `from_clause`, with the table name materialized. -/
def LFromClause (s : List Char) : Prop := s = cs " FROM github_events"

/-- Rule `string_list`: one or more quoted STRING_VALUEs joined by `", "`. -/
def LStringList (s : List Char) : Prop :=
  sepList (fun q => ∃ v, LStringValue v ∧ q = cs "'" ++ v ++ cs "'") (cs ", ") s

/-- Rule `event_type_list`. -/
def LEventTypeList (s : List Char) : Prop :=
  sepList (fun q => ∃ v, LEventType v ∧ q = cs "'" ++ v ++ cs "'") (cs ", ") s

/-- Rule `string_condition`. -/
def LStringCondition (s : List Char) : Prop :=
  (∃ col v, LStringCol col ∧ LStringValue v ∧ s = col ++ cs " = '" ++ v ++ cs "'") ∨
  (∃ col v, LStringCol col ∧ LStringValue v ∧
    s = col ++ cs " LIKE '%" ++ v ++ cs "%'") ∨
  (∃ col l, LStringCol col ∧ LStringList l ∧ s = col ++ cs " IN (" ++ l ++ cs ")")

/-- Rule `numeric_condition`. -/
def LNumericCondition (s : List Char) : Prop :=
  ∃ col op n, LNumericCol col ∧ LCompareOp op ∧ LNumber n ∧
    s = col ++ cs " " ++ op ++ cs " " ++ n

/-- Rule `datetime_condition`. -/
def LDatetimeCondition (s : List Char) : Prop :=
  (∃ n u, LNumber n ∧ LTimeUnit u ∧
    s = cs "created_at >= now() - INTERVAL " ++ n ++ cs " " ++ u) ∨
  (∃ d1 d2, LDateLiteral d1 ∧ LDateLiteral d2 ∧
    s = cs "created_at BETWEEN '" ++ d1 ++ cs "' AND '" ++ d2 ++ cs "'")

/-- Rule `enum_condition`. -/
def LEnumCondition (s : List Char) : Prop :=
  (∃ v, LEventType v ∧ s = cs "type = '" ++ v ++ cs "'") ∨
  (∃ l, LEventTypeList l ∧ s = cs "type IN (" ++ l ++ cs ")") ∨
  (∃ v, LActionValue v ∧ s = cs "action = '" ++ v ++ cs "'")

/-- Rule `condition`. -/
def LCondition (s : List Char) : Prop :=
  LStringCondition s ∨ LNumericCondition s ∨ LDatetimeCondition s ∨
    LEnumCondition s

/-- Rule `where_clause: " WHERE " condition (" AND " condition)*`. -/
def LWhereClause (s : List Char) : Prop :=
  ∃ l, sepList LCondition (cs " AND ") l ∧ s = cs " WHERE " ++ l

/-- Rule `group_item: column_ref | date_trunc_expr`. -/
def LGroupItem (s : List Char) : Prop := LColumnRef s ∨ LDateTruncExpr s

/-- Rule `group_clause`. -/
def LGroupClause (s : List Char) : Prop :=
  ∃ l, sepList LGroupItem (cs ", ") l ∧ s = cs " GROUP BY " ++ l

/-- Rule `having_clause`. -/
def LHavingClause (s : List Char) : Prop :=
  ∃ a op n, LAggExpr a ∧ LCompareOp op ∧ LNumber n ∧
    s = cs " HAVING " ++ a ++ cs " " ++ op ++ cs " " ++ n

/-- Rule `order_expr: column_ref | ALIAS | agg_expr`. -/
def LOrderExpr (s : List Char) : Prop := LColumnRef s ∨ LAlias s ∨ LAggExpr s

/-- Rule `order_item: order_expr order_dir?`. -/
def LOrderItem (s : List Char) : Prop :=
  ∃ e, LOrderExpr e ∧ (s = e ∨ s = e ++ cs " ASC" ∨ s = e ++ cs " DESC")

/-- Rule `order_clause`. -/
def LOrderClause (s : List Char) : Prop :=
  ∃ l, sepList LOrderItem (cs ", ") l ∧ s = cs " ORDER BY " ++ l

/-- Rule `limit_clause`. -/
def LLimitClause (s : List Char) : Prop :=
  ∃ n, LNumber n ∧ s = cs " LIMIT " ++ n

/-- The start rule: required SELECT and FROM clauses followed by the five
optional clauses, concatenated in order. -/
def LStart (s : List Char) : Prop :=
  ∃ s1 s2 s3 s4 s5 s6 s7,
    LSelectClause s1 ∧ LFromClause s2 ∧ LOpt LWhereClause s3 ∧
    LOpt LGroupClause s4 ∧ LOpt LHavingClause s5 ∧ LOpt LOrderClause s6 ∧
    LOpt LLimitClause s7 ∧ s = s1 ++ s2 ++ s3 ++ s4 ++ s5 ++ s6 ++ s7

/-
Helper lemmas. The `..._fail` family states the cursor roll-back contract:
whenever a rule function returns null, the state it leaves behind has the
entry position (for leaf parsers the whole state is untouched). The
`..._rule` family records the rule tag of a successful parse.
-/

/-- Failing literal match leaves the state untouched. -/
theorem matchLiteral_false {s : ParseState} {lit : List Char} {t : ParseState}
    (h : s.matchLiteral lit = (false, t)) : t = s := by
  unfold ParseState.matchLiteral at h
  split at h <;> simp_all

/-- Successful literal match advances the cursor past the literal. -/
theorem matchLiteral_true {s : ParseState} {lit : List Char} {t : ParseState}
    (h : s.matchLiteral lit = (true, t)) :
    startsWithL lit (s.input.drop s.pos) = true ∧
      t = ⟨s.input, s.pos + lit.length⟩ := by
  unfold ParseState.matchLiteral at h
  split at h <;> simp_all

/-- A failed literal-alternatives loop leaves the state untouched. -/
theorem tryLiterals_fail {r : String} {ls : List (List Char)} {s t : ParseState}
    (h : tryLiterals r ls s = (none, t)) : t = s := by
  induction ls generalizing s with
  | nil => simp [tryLiterals] at h; exact h.symm
  | cons lit rest ih =>
    unfold tryLiterals at h
    rcases hm : s.matchLiteral lit with ⟨b, s1⟩
    rw [hm] at h
    cases b with
    | true => simp at h
    | false =>
      simp at h
      have h1 : s1 = s := matchLiteral_false hm
      subst h1
      exact ih h

/-- A successful literal-alternatives loop tags its node with the rule. -/
theorem tryLiterals_rule {r : String} {ls : List (List Char)}
    {s t : ParseState} {n : GrammarDerivationNode}
    (h : tryLiterals r ls s = (some n, t)) : n.rule = r := by
  induction ls generalizing s with
  | nil => simp [tryLiterals] at h
  | cons lit rest ih =>
    unfold tryLiterals at h
    rcases hm : s.matchLiteral lit with ⟨b, s1⟩
    rw [hm] at h
    cases b with
    | true => simp at h; rw [← h.1]; rfl
    | false => exact ih h

/-- Failing NUMBER terminal leaves the state untouched. -/
theorem parseNumber_fail {s t : ParseState}
    (h : parseNumber s = (none, t)) : t = s := by
  unfold parseNumber at h
  split at h <;> simp_all

/-- Failing ALIAS terminal leaves the state untouched. -/
theorem parseAlias_fail {s t : ParseState}
    (h : parseAlias s = (none, t)) : t = s := by
  unfold parseAlias at h
  split at h
  · simp_all
  · split at h <;> simp_all

/-- Failing STRING_VALUE terminal leaves the state untouched. -/
theorem parseStringValue_fail {s t : ParseState}
    (h : parseStringValue s = (none, t)) : t = s := by
  unfold parseStringValue at h
  split at h <;> simp_all

/-- Failing DATE_LITERAL terminal leaves the state untouched. -/
theorem parseDateLiteral_fail {s t : ParseState}
    (h : parseDateLiteral s = (none, t)) : t = s := by
  unfold parseDateLiteral at h
  split at h
  · split at h <;> simp_all
  · simp_all

/-- Failing column-reference parser restores the entry position. -/
theorem parseColumnRef_fail {s t : ParseState}
    (h : parseColumnRef s = (none, t)) : t.pos = s.pos := by
  unfold parseColumnRef at h
  split at h
  · simp at h
  · simp at h; rw [← h]; rfl

/-- Failing aggregate-function parser leaves the state untouched. -/
theorem parseAggFunc_fail {s t : ParseState}
    (h : parseAggFunc s = (none, t)) : t = s :=
  tryLiterals_fail h

/-- Failing date-truncation parser leaves the state untouched. -/
theorem parseDateTruncExpr_fail {s t : ParseState}
    (h : parseDateTruncExpr s = (none, t)) : t = s :=
  tryLiterals_fail h

/-- Failing comparison-operator parser leaves the state untouched. -/
theorem parseCompareOp_fail {s t : ParseState}
    (h : parseCompareOp s = (none, t)) : t = s :=
  tryLiterals_fail h

/-- Successful column-reference parse is tagged `column_ref`. -/
theorem parseColumnRef_rule {s t : ParseState} {n : GrammarDerivationNode}
    (h : parseColumnRef s = (some n, t)) : n.rule = "column_ref" := by
  unfold parseColumnRef at h
  split at h
  · simp at h; exact h.1 ▸ tryLiterals_rule (by assumption)
  · simp at h

/-- Successful date-truncation parse is tagged `date_trunc_expr`. -/
theorem parseDateTruncExpr_rule {s t : ParseState} {n : GrammarDerivationNode}
    (h : parseDateTruncExpr s = (some n, t)) : n.rule = "date_trunc_expr" :=
  tryLiterals_rule h

/-- Successful ALIAS parse is tagged `alias`. -/
theorem parseAlias_rule {s t : ParseState} {n : GrammarDerivationNode}
    (h : parseAlias s = (some n, t)) : n.rule = "alias" := by
  unfold parseAlias at h
  split at h
  · simp at h
  · split at h <;> simp_all
    rw [← h.1]; rfl

/-- Failing aggregate-expression parser restores the entry position. -/
theorem parseAggExpr_fail {s t : ParseState}
    (h : parseAggExpr s = (none, t)) : t.pos = s.pos := by
  unfold parseAggExpr at h
  rcases hf : parseAggFunc s with ⟨fo, s1⟩
  rw [hf] at h
  cases fo with
  | none =>
    dsimp only at h
    cases h
    exact congrArg ParseState.pos (tryLiterals_fail hf)
  | some func =>
    dsimp only at h
    rcases hm : s1.matchLiteral (cs "(") with ⟨b, s2⟩
    rw [hm] at h
    cases b with
    | false => dsimp only at h; cases h; rfl
    | true =>
      dsimp only at h
      rcases hc : parseColumnRef s2 with ⟨co, s3⟩
      rw [hc] at h
      dsimp only at h
      rcases hm2 : s3.matchLiteral (cs ")") with ⟨b2, s4⟩
      rw [hm2] at h
      cases b2 with
      | false => dsimp only at h; cases h; rfl
      | true => dsimp only at h; cases co <;> simp at h

/-- Successful aggregate-expression parse is tagged `agg_expr`. -/
theorem parseAggExpr_rule {s t : ParseState} {n : GrammarDerivationNode}
    (h : parseAggExpr s = (some n, t)) : n.rule = "agg_expr" := by
  unfold parseAggExpr at h
  rcases hf : parseAggFunc s with ⟨fo, s1⟩
  rw [hf] at h
  cases fo with
  | none => simp at h
  | some func =>
    dsimp only at h
    rcases hm : s1.matchLiteral (cs "(") with ⟨b, s2⟩
    rw [hm] at h
    cases b with
    | false => simp at h
    | true =>
      dsimp only at h
      rcases hc : parseColumnRef s2 with ⟨co, s3⟩
      rw [hc] at h
      dsimp only at h
      rcases hm2 : s3.matchLiteral (cs ")") with ⟨b2, s4⟩
      rw [hm2] at h
      cases b2 with
      | false => simp at h
      | true =>
        dsimp only at h
        cases co <;> simp at h <;> rw [← h.1] <;> rfl

/-- Failing bare-column select-item attempt preserves the position. -/
theorem selectItemColRef_fail {s t : ParseState}
    (h : selectItemColRef s = (none, t)) : t.pos = s.pos := by
  unfold selectItemColRef at h
  rcases hc : parseColumnRef s with ⟨co, s1⟩
  rw [hc] at h
  cases co with
  | none => dsimp only at h; cases h; exact parseColumnRef_fail hc
  | some colRef => simp at h

/-- Failing date-truncation select-item attempt ends at the saved position. -/
theorem selectItemDT_fail {saved : Nat} {s t : ParseState}
    (h : selectItemDT saved s = (none, t)) : t.pos = saved := by
  unfold selectItemDT at h
  rcases hd : parseDateTruncExpr s with ⟨dopt, s1⟩
  rw [hd] at h
  cases dopt with
  | none =>
    dsimp only at h
    have := selectItemColRef_fail h
    rw [this]; rfl
  | some dtExpr =>
    dsimp only at h
    rcases hm : s1.matchLiteral (cs " AS ") with ⟨b, s2⟩
    rw [hm] at h
    cases b with
    | false =>
      dsimp only at h
      have := selectItemColRef_fail h
      rw [this]; rfl
    | true =>
      dsimp only at h
      rcases ha : parseAlias s2 with ⟨ao, s3⟩
      rw [ha] at h
      cases ao with
      | none =>
        dsimp only at h
        have := selectItemColRef_fail h
        rw [this]; rfl
      | some al => simp at h

/-- Failing select item restores the entry position. -/
theorem parseSelectItem_fail {s t : ParseState}
    (h : parseSelectItem s = (none, t)) : t.pos = s.pos := by
  unfold parseSelectItem at h
  rcases hg : parseAggExpr s with ⟨go, s1⟩
  rw [hg] at h
  cases go with
  | none => exact selectItemDT_fail h
  | some aggExpr =>
    dsimp only at h
    rcases hm : s1.matchLiteral (cs " AS ") with ⟨b, s2⟩
    rw [hm] at h
    cases b with
    | false => exact selectItemDT_fail h
    | true =>
      dsimp only at h
      rcases ha : parseAlias s2 with ⟨ao, s3⟩
      rw [ha] at h
      cases ao with
      | none => exact selectItemDT_fail h
      | some al => simp at h

/-- Failing SELECT clause restores the entry position. -/
theorem parseSelectClause_fail {s t : ParseState}
    (h : parseSelectClause s = (none, t)) : t.pos = s.pos := by
  unfold parseSelectClause at h
  rcases hm : s.matchLiteral (cs "SELECT ") with ⟨b, s1⟩
  rw [hm] at h
  cases b with
  | false => dsimp only at h; cases h; rfl
  | true =>
    dsimp only at h
    rcases hi : parseSelectItem s1 with ⟨io, s2⟩
    rw [hi] at h
    cases io with
    | none => dsimp only at h; cases h; rfl
    | some first =>
      dsimp only at h
      rcases hl : commaItemsLoop parseSelectItem (s2.input.length + 1) s2 [first]
        with ⟨items, s3⟩
      rw [hl] at h
      simp at h

/-- Failing FROM clause leaves the state untouched. -/
theorem parseFromClause_fail {s t : ParseState}
    (h : parseFromClause s = (none, t)) : t = s := by
  unfold parseFromClause at h
  rcases hm : s.matchLiteral (cs " FROM github_events") with ⟨b, s1⟩
  rw [hm] at h
  cases b with
  | false => dsimp only at h; cases h; exact matchLiteral_false hm
  | true => simp at h

/-- Failing string-condition column loop ends at the saved position, or
never ran an iteration and left the state untouched. -/
theorem strCondLoop_fail {saved : Nat} {ls : List (List Char)} {s t : ParseState}
    (h : strCondLoop saved ls s = (none, t)) : t.pos = saved ∨ t = s := by
  induction ls generalizing s with
  | nil => simp [strCondLoop] at h; exact Or.inr h.symm
  | cons col rest ih =>
    unfold strCondLoop at h
    rcases h1 : strCondTryEq col (s.restore saved) with ⟨o1, s1⟩
    rw [h1] at h
    cases o1 with
    | some n => simp at h
    | none =>
      dsimp only at h
      rcases h2 : strCondTryLike col (s1.restore saved) with ⟨o2, s2⟩
      rw [h2] at h
      cases o2 with
      | some n => simp at h
      | none =>
        dsimp only at h
        rcases h3 : strCondTryIn col (s2.restore saved) with ⟨o3, s3⟩
        rw [h3] at h
        cases o3 with
        | some n => simp at h
        | none =>
          dsimp only at h
          rcases ih h with hp | he
          · exact Or.inl hp
          · exact Or.inl (by rw [he]; rfl)

/-- Failing string condition restores the entry position. -/
theorem parseStringCondition_fail {s t : ParseState}
    (h : parseStringCondition s = (none, t)) : t.pos = s.pos := by
  unfold parseStringCondition at h
  rcases strCondLoop_fail h with hp | he
  · exact hp
  · rw [he]

/-- Failing numeric-condition column loop ends at the saved position. -/
theorem numCondLoop_fail {saved : Nat} {ls : List (List Char)} {s t : ParseState}
    (h : numCondLoop saved ls s = (none, t)) : t.pos = saved := by
  induction ls generalizing s with
  | nil => simp [numCondLoop] at h; rw [← h]; rfl
  | cons col rest ih =>
    unfold numCondLoop at h
    rcases hm : (s.restore saved).matchLiteral (col ++ cs " ") with ⟨b, s1⟩
    rw [hm] at h
    cases b with
    | false => exact ih h
    | true =>
      dsimp only at h
      rcases ho : parseCompareOp s1 with ⟨oo, s2⟩
      rw [ho] at h
      cases oo with
      | none => exact ih h
      | some op =>
        dsimp only at h
        rcases hm2 : s2.matchLiteral (cs " ") with ⟨b2, s3⟩
        rw [hm2] at h
        cases b2 with
        | false => exact ih h
        | true =>
          dsimp only at h
          rcases hn : parseNumber s3 with ⟨no, s4⟩
          rw [hn] at h
          cases no with
          | none => exact ih h
          | some num => simp at h

/-- Failing numeric condition restores the entry position. -/
theorem parseNumericCondition_fail {s t : ParseState}
    (h : parseNumericCondition s = (none, t)) : t.pos = s.pos :=
  numCondLoop_fail h

/-- Failing time-unit loop leaves the state untouched. -/
theorem dtUnitLoop_fail {num : GrammarDerivationNode} {ls : List (List Char)}
    {s t : ParseState} (h : dtUnitLoop num ls s = (none, t)) : t = s := by
  induction ls generalizing s with
  | nil => simp [dtUnitLoop] at h; exact h.symm
  | cons u rest ih =>
    unfold dtUnitLoop at h
    rcases hm : s.matchLiteral u with ⟨b, s1⟩
    rw [hm] at h
    cases b with
    | true => simp at h
    | false =>
      dsimp only at h
      have h1 : s1 = s := matchLiteral_false hm
      subst h1
      exact ih h

/-- Failing BETWEEN branch ends at the saved position. -/
theorem dtBetween_fail {saved : Nat} {s t : ParseState}
    (h : dtBetween saved s = (none, t)) : t.pos = saved := by
  unfold dtBetween at h
  rcases hm : s.matchLiteral (cs "created_at BETWEEN '") with ⟨b, s1⟩
  rw [hm] at h
  cases b with
  | false => dsimp only at h; cases h; rfl
  | true =>
    dsimp only at h
    rcases hd : parseDateLiteral s1 with ⟨d1o, s2⟩
    rw [hd] at h
    cases d1o with
    | none => dsimp only at h; cases h; rfl
    | some d1 =>
      dsimp only at h
      rcases hm2 : s2.matchLiteral (cs "' AND '") with ⟨b2, s3⟩
      rw [hm2] at h
      cases b2 with
      | false => dsimp only at h; cases h; rfl
      | true =>
        dsimp only at h
        rcases hd2 : parseDateLiteral s3 with ⟨d2o, s4⟩
        rw [hd2] at h
        cases d2o with
        | none => dsimp only at h; cases h; rfl
        | some d2 =>
          dsimp only at h
          rcases hm3 : s4.matchLiteral (cs "'") with ⟨b3, s5⟩
          rw [hm3] at h
          cases b3 with
          | false => dsimp only at h; cases h; rfl
          | true => simp at h

/-- Failing datetime condition restores the entry position. -/
theorem parseDatetimeCondition_fail {s t : ParseState}
    (h : parseDatetimeCondition s = (none, t)) : t.pos = s.pos := by
  unfold parseDatetimeCondition at h
  rcases hm : s.matchLiteral (cs "created_at >= now() - INTERVAL ") with ⟨b, s1⟩
  rw [hm] at h
  cases b with
  | false => exact dtBetween_fail h
  | true =>
    dsimp only at h
    rcases hn : parseNumber s1 with ⟨no, s2⟩
    rw [hn] at h
    cases no with
    | none => exact dtBetween_fail h
    | some num =>
      dsimp only at h
      rcases hm2 : s2.matchLiteral (cs " ") with ⟨b2, s3⟩
      rw [hm2] at h
      cases b2 with
      | false => exact dtBetween_fail h
      | true =>
        dsimp only at h
        rcases hu : dtUnitLoop num TIME_UNITS s3 with ⟨uo, s4⟩
        rw [hu] at h
        cases uo with
        | some n => simp at h
        | none => exact dtBetween_fail h

/-- Failing enum condition restores the entry position. -/
theorem parseEnumCondition_fail {s t : ParseState}
    (h : parseEnumCondition s = (none, t)) : t.pos = s.pos := by
  unfold parseEnumCondition at h
  rcases h1 : enumCondTryTypeEq s with ⟨o1, s1⟩
  rw [h1] at h
  cases o1 with
  | some n => simp at h
  | none =>
    dsimp only at h
    rcases h2 : enumCondTryTypeIn (s1.restore s.pos) with ⟨o2, s2⟩
    rw [h2] at h
    cases o2 with
    | some n => simp at h
    | none =>
      dsimp only at h
      rcases h3 : enumCondTryAction (s2.restore s.pos) with ⟨o3, s3⟩
      rw [h3] at h
      cases o3 with
      | some n => simp at h
      | none => dsimp only at h; cases h; rfl

/-- Failing condition dispatcher restores the entry position. -/
theorem parseCondition_fail {s t : ParseState}
    (h : parseCondition s = (none, t)) : t.pos = s.pos := by
  unfold parseCondition at h
  rcases h1 : parseDatetimeCondition s with ⟨o1, s1⟩
  rw [h1] at h
  cases o1 with
  | some n => simp at h
  | none =>
    dsimp only at h
    rcases h2 : parseEnumCondition s1 with ⟨o2, s2⟩
    rw [h2] at h
    cases o2 with
    | some n => simp at h
    | none =>
      dsimp only at h
      rcases h3 : parseStringCondition s2 with ⟨o3, s3⟩
      rw [h3] at h
      cases o3 with
      | some n => simp at h
      | none =>
        dsimp only at h
        have e3 := parseStringCondition_fail h3
        have e2 := parseEnumCondition_fail h2
        have e1 := parseDatetimeCondition_fail h1
        have e4 := parseNumericCondition_fail h
        omega

/-- Failing WHERE clause restores the entry position. -/
theorem parseWhereClause_fail {s t : ParseState}
    (h : parseWhereClause s = (none, t)) : t.pos = s.pos := by
  unfold parseWhereClause at h
  rcases hm : s.matchLiteral (cs " WHERE ") with ⟨b, s1⟩
  rw [hm] at h
  cases b with
  | false => dsimp only at h; cases h; rfl
  | true =>
    dsimp only at h
    rcases hc : parseCondition s1 with ⟨co, s2⟩
    rw [hc] at h
    cases co with
    | none => dsimp only at h; cases h; rfl
    | some first =>
      dsimp only at h
      rcases hl : andCondLoop (s2.input.length + 1) s2 [first] with ⟨cl, s3⟩
      rw [hl] at h
      simp at h

/-- Failing group item preserves the entry position. -/
theorem parseGroupItem_fail {s t : ParseState}
    (h : parseGroupItem s = (none, t)) : t.pos = s.pos := by
  unfold parseGroupItem at h
  rcases hd : parseDateTruncExpr s with ⟨dopt, s1⟩
  rw [hd] at h
  cases dopt with
  | some dt => simp at h
  | none =>
    dsimp only at h
    rcases hc : parseColumnRef s1 with ⟨co, s2⟩
    rw [hc] at h
    cases co with
    | some colRef => simp at h
    | none =>
      dsimp only at h
      rcases ha : parseAlias s2 with ⟨ao, s3⟩
      rw [ha] at h
      cases ao with
      | some al => simp at h
      | none =>
        dsimp only at h
        cases h
        have e1 : s1 = s := parseDateTruncExpr_fail hd
        have e2 := parseColumnRef_fail hc
        have e3 : t = s2 := parseAlias_fail ha
        rw [e3, e2, e1]

/-- Failing GROUP BY clause restores the entry position. -/
theorem parseGroupClause_fail {s t : ParseState}
    (h : parseGroupClause s = (none, t)) : t.pos = s.pos := by
  unfold parseGroupClause at h
  rcases hm : s.matchLiteral (cs " GROUP BY ") with ⟨b, s1⟩
  rw [hm] at h
  cases b with
  | false => dsimp only at h; cases h; rfl
  | true =>
    dsimp only at h
    rcases hi : parseGroupItem s1 with ⟨io, s2⟩
    rw [hi] at h
    cases io with
    | none => dsimp only at h; cases h; rfl
    | some first =>
      dsimp only at h
      rcases hl : commaItemsLoop parseGroupItem (s2.input.length + 1) s2 [first]
        with ⟨items, s3⟩
      rw [hl] at h
      simp at h

/-- Failing HAVING clause restores the entry position. -/
theorem parseHavingClause_fail {s t : ParseState}
    (h : parseHavingClause s = (none, t)) : t.pos = s.pos := by
  unfold parseHavingClause at h
  rcases hm : s.matchLiteral (cs " HAVING ") with ⟨b, s1⟩
  rw [hm] at h
  cases b with
  | false => dsimp only at h; cases h; rfl
  | true =>
    dsimp only at h
    rcases hg : parseAggExpr s1 with ⟨go, s2⟩
    rw [hg] at h
    cases go with
    | none => dsimp only at h; cases h; rfl
    | some aggExpr =>
      dsimp only at h
      rcases hm2 : s2.matchLiteral (cs " ") with ⟨b2, s3⟩
      rw [hm2] at h
      cases b2 with
      | false => dsimp only at h; cases h; rfl
      | true =>
        dsimp only at h
        rcases ho : parseCompareOp s3 with ⟨oo, s4⟩
        rw [ho] at h
        cases oo with
        | none => dsimp only at h; cases h; rfl
        | some op =>
          dsimp only at h
          rcases hm3 : s4.matchLiteral (cs " ") with ⟨b3, s5⟩
          rw [hm3] at h
          cases b3 with
          | false => dsimp only at h; cases h; rfl
          | true =>
            dsimp only at h
            rcases hn : parseNumber s5 with ⟨no, s6⟩
            rw [hn] at h
            cases no with
            | none => dsimp only at h; cases h; rfl
            | some num => simp at h

/-- Failing order item restores the entry position. -/
theorem parseOrderItem_fail {s t : ParseState}
    (h : parseOrderItem s = (none, t)) : t.pos = s.pos := by
  unfold parseOrderItem at h
  rcases hg : parseAggExpr s with ⟨go, s1⟩
  rw [hg] at h
  cases go with
  | some base =>
    dsimp only at h
    unfold orderItemFinish at h
    rcases hm : s1.matchLiteral (cs " DESC") with ⟨b, s2⟩
    rw [hm] at h
    cases b with
    | true => simp at h
    | false =>
      dsimp only at h
      rcases hm2 : s2.matchLiteral (cs " ASC") with ⟨b2, s3⟩
      rw [hm2] at h
      cases b2 <;> simp at h
  | none =>
    dsimp only at h
    rcases hc : parseColumnRef s1 with ⟨co, s2⟩
    rw [hc] at h
    cases co with
    | some base =>
      dsimp only at h
      unfold orderItemFinish at h
      rcases hm : s2.matchLiteral (cs " DESC") with ⟨b, s3⟩
      rw [hm] at h
      cases b with
      | true => simp at h
      | false =>
        dsimp only at h
        rcases hm2 : s3.matchLiteral (cs " ASC") with ⟨b2, s4⟩
        rw [hm2] at h
        cases b2 <;> simp at h
    | none =>
      dsimp only at h
      rcases ha : parseAlias s2 with ⟨ao, s3⟩
      rw [ha] at h
      cases ao with
      | some base =>
        dsimp only at h
        unfold orderItemFinish at h
        rcases hm : s3.matchLiteral (cs " DESC") with ⟨b, s4⟩
        rw [hm] at h
        cases b with
        | true => simp at h
        | false =>
          dsimp only at h
          rcases hm2 : s4.matchLiteral (cs " ASC") with ⟨b2, s5⟩
          rw [hm2] at h
          cases b2 <;> simp at h
      | none => dsimp only at h; cases h; rfl

/-- Failing ORDER BY clause restores the entry position. -/
theorem parseOrderClause_fail {s t : ParseState}
    (h : parseOrderClause s = (none, t)) : t.pos = s.pos := by
  unfold parseOrderClause at h
  rcases hm : s.matchLiteral (cs " ORDER BY ") with ⟨b, s1⟩
  rw [hm] at h
  cases b with
  | false => dsimp only at h; cases h; rfl
  | true =>
    dsimp only at h
    rcases hi : parseOrderItem s1 with ⟨io, s2⟩
    rw [hi] at h
    cases io with
    | none => dsimp only at h; cases h; rfl
    | some first =>
      dsimp only at h
      rcases hl : commaItemsLoop parseOrderItem (s2.input.length + 1) s2 [first]
        with ⟨items, s3⟩
      rw [hl] at h
      simp at h

/-- Failing LIMIT clause restores the entry position. -/
theorem parseLimitClause_fail {s t : ParseState}
    (h : parseLimitClause s = (none, t)) : t.pos = s.pos := by
  unfold parseLimitClause at h
  rcases hm : s.matchLiteral (cs " LIMIT ") with ⟨b, s1⟩
  rw [hm] at h
  cases b with
  | false => dsimp only at h; cases h; rfl
  | true =>
    dsimp only at h
    rcases hn : parseNumber s1 with ⟨no, s2⟩
    rw [hn] at h
    cases no with
    | none => dsimp only at h; cases h; rfl
    | some num => simp at h

/-- A pattern is a prefix of itself followed by anything. -/
theorem startsWithL_self_append (pat b : List Char) :
    startsWithL pat (pat ++ b) = true := by
  induction pat with
  | nil => rfl
  | cons c rest ih => simp [startsWithL, ih]

/-- A dollar-free replacement template is substituted verbatim. -/
theorem getSubstitution_no_dollar {m b a v : List Char} (h : '$' ∉ v) :
    getSubstitution m b a v = v := by
  induction v with
  | nil => rfl
  | cons c rest ih =>
    have hc : c ≠ '$' := by
      intro e
      subst e
      exact h (List.mem_cons_self _ _)
    have ih2 := ih (fun hm => h (List.mem_cons_of_mem c hm))
    unfold getSubstitution
    split
    · next heq => injection heq with h1 _; exact absurd h1 hc
    · next heq => injection heq with h1 _; exact absurd h1 hc
    · next heq => injection heq with h1 _; exact absurd h1 hc
    · next heq => injection heq with h1 _; exact absurd h1 hc
    · next c2 rest2 _ _ _ _ heq =>
        injection heq with h1 h2
        subst h1
        subst h2
        rw [ih2]
    · next heq => simp at heq

/-- When the replacement is dollar-free, the scanning loop emits the
accumulated prefix in front of what scanning with an empty prefix
yields. -/
theorem replaceFirstGo_shift {pat v : List Char} (hv : '$' ∉ v) :
    ∀ (s rpre : List Char),
      replaceFirstGo pat v rpre s =
        rpre.reverse ++ replaceFirstGo pat v [] s := by
  intro s
  induction s with
  | nil => intro rpre; simp [replaceFirstGo]
  | cons c rest ih =>
    intro rpre
    cases hm : startsWithL pat (c :: rest) with
    | true =>
      simp only [replaceFirstGo, hm, if_true]
      rw [getSubstitution_no_dollar hv, getSubstitution_no_dollar hv]
      simp
    | false =>
      simp only [replaceFirstGo, hm, Bool.false_eq_true, if_false]
      rw [ih (c :: rpre), ih [c]]
      simp [List.reverse_cons, List.append_assoc]

/-- The scanning loop moves a leading segment free of the pattern's first
character into the accumulator. -/
theorem replaceFirstGo_skip {pat pr v : List Char}
    (hpat : pat = '\x7b' :: pr) :
    ∀ (a : List Char), '\x7b' ∉ a → ∀ (rpre b : List Char),
      replaceFirstGo pat v rpre (a ++ b) =
        replaceFirstGo pat v (a.reverse ++ rpre) b := by
  subst hpat
  intro a
  induction a with
  | nil => intro _ rpre b; simp
  | cons c rest ih =>
    intro ha rpre b
    have hne : '\x7b' ≠ c := by
      intro e
      subst e
      exact ha (List.mem_cons_self _ _)
    have hc : ('\x7b' == c) = false := beq_eq_false_iff_ne.mpr hne
    rw [List.cons_append]
    rw [show replaceFirstGo ('\x7b' :: pr) v rpre (c :: (rest ++ b)) =
        if startsWithL ('\x7b' :: pr) (c :: (rest ++ b)) = true then
          rpre.reverse ++
            getSubstitution ('\x7b' :: pr) rpre.reverse
              ((c :: (rest ++ b)).drop ('\x7b' :: pr).length) v ++
            (c :: (rest ++ b)).drop ('\x7b' :: pr).length
        else replaceFirstGo ('\x7b' :: pr) v (c :: rpre) (rest ++ b)
      from rfl]
    rw [show startsWithL ('\x7b' :: pr) (c :: (rest ++ b)) =
        ('\x7b' == c && startsWithL pr (rest ++ b)) from rfl, hc]
    simp only [Bool.false_and, Bool.false_eq_true, if_false]
    rw [ih (fun hm => ha (List.mem_cons_of_mem c hm)) (c :: rpre) b]
    congr 1
    simp [List.reverse_cons, List.append_assoc]

/-- Replacement with a dollar-free value skips any leading segment free of
the pattern's first character. -/
theorem replaceFirst_skip {a b pat v pr : List Char}
    (hpat : pat = '\x7b' :: pr) (h : '\x7b' ∉ a) (hv : '$' ∉ v) :
    replaceFirst (a ++ b) pat v = a ++ replaceFirst b pat v := by
  unfold replaceFirst
  rw [replaceFirstGo_skip hpat a h [] b, replaceFirstGo_shift hv]
  simp

/-- Replacement of the pattern at the head with a dollar-free value
substitutes it and keeps the rest untouched. -/
theorem replaceFirst_hit {pat b v : List Char} {p : Char} {pr : List Char}
    (hpat : pat = p :: pr) (hv : '$' ∉ v) :
    replaceFirst (pat ++ b) pat v = v ++ b := by
  subst hpat
  unfold replaceFirst
  rw [List.cons_append]
  rw [show replaceFirstGo (p :: pr) v [] (p :: (pr ++ b)) =
      if startsWithL (p :: pr) (p :: (pr ++ b)) = true then
        ([] : List Char).reverse ++
          getSubstitution (p :: pr) ([] : List Char).reverse
            ((p :: (pr ++ b)).drop (p :: pr).length) v ++
          (p :: (pr ++ b)).drop (p :: pr).length
      else replaceFirstGo (p :: pr) v [p] (pr ++ b)
    from rfl]
  rw [show (p :: (pr ++ b)) = (p :: pr) ++ b from rfl,
    startsWithL_self_append]
  rw [show ((p :: pr) ++ b).drop (p :: pr).length = b from List.drop_left _ _]
  simp [getSubstitution_no_dollar hv]

/-- A pattern that mismatches inside `a` is not a prefix of `a` followed by
anything. -/
theorem startsWithL_eq_false_of_mismNow :
    ∀ (pat a : List Char), mismNow pat a = true →
      ∀ b, startsWithL pat (a ++ b) = false := by
  intro pat
  induction pat with
  | nil =>
    intro a h b
    cases a with
    | nil =>
      rw [show mismNow [] ([] : List Char) = false from rfl] at h
      exact absurd h (by simp)
    | cons c rest =>
      rw [show mismNow [] (c :: rest) = false from rfl] at h
      exact absurd h (by simp)
  | cons p ps ih =>
    intro a h b
    cases a with
    | nil =>
      rw [show mismNow (p :: ps) [] = false from rfl] at h
      exact absurd h (by simp)
    | cons c rest =>
      have h2 : (!(p == c) || mismNow ps rest) = true := by
        rw [show mismNow (p :: ps) (c :: rest) =
            (!(p == c) || mismNow ps rest) from rfl] at h
        exact h
      rw [List.cons_append]
      rw [show startsWithL (p :: ps) (c :: (rest ++ b)) =
          ((p == c) && startsWithL ps (rest ++ b)) from rfl]
      cases hx : (p == c) with
      | false => rw [Bool.false_and]
      | true =>
        rw [hx, Bool.not_true, Bool.false_or] at h2
        rw [Bool.true_and]
        exact ih rest h2 b

/-- A segment free of the pattern's first character mismatches the pattern
inside itself at every offset. -/
theorem noHitIn_of_no_brace {pat pr : List Char}
    (hpat : pat = '\x7b' :: pr) :
    ∀ (a : List Char), '\x7b' ∉ a → noHitIn pat a = true := by
  subst hpat
  intro a
  induction a with
  | nil => intro _; rfl
  | cons c rest ih =>
    intro ha
    have hne : '\x7b' ≠ c := by
      intro e
      subst e
      exact ha (List.mem_cons_self _ _)
    have hc : ('\x7b' == c) = false := beq_eq_false_iff_ne.mpr hne
    rw [show noHitIn ('\x7b' :: pr) (c :: rest) =
        (mismNow ('\x7b' :: pr) (c :: rest) && noHitIn ('\x7b' :: pr) rest)
      from rfl]
    rw [show mismNow ('\x7b' :: pr) (c :: rest) =
        (!('\x7b' == c) || mismNow pr rest) from rfl]
    rw [hc, ih (fun hm => ha (List.mem_cons_of_mem c hm))]
    simp

/-- The scanning loop moves a whole segment into the accumulator when the
pattern mismatches inside the segment at every offset. -/
theorem replaceFirstGo_skipSeg {pat v : List Char} :
    ∀ (a : List Char), noHitIn pat a = true → ∀ (rpre b : List Char),
      replaceFirstGo pat v rpre (a ++ b) =
        replaceFirstGo pat v (a.reverse ++ rpre) b := by
  intro a
  induction a with
  | nil => intro _ rpre b; simp
  | cons c rest ih =>
    intro ha rpre b
    have ha2 : (mismNow pat (c :: rest) && noHitIn pat rest) = true := by
      rw [show noHitIn pat (c :: rest) =
          (mismNow pat (c :: rest) && noHitIn pat rest) from rfl] at ha
      exact ha
    rw [Bool.and_eq_true] at ha2
    obtain ⟨hm, hrest⟩ := ha2
    have hsw : startsWithL pat ((c :: rest) ++ b) = false :=
      startsWithL_eq_false_of_mismNow pat (c :: rest) hm b
    rw [List.cons_append] at hsw
    rw [List.cons_append]
    rw [show replaceFirstGo pat v rpre (c :: (rest ++ b)) =
        if startsWithL pat (c :: (rest ++ b)) = true then
          rpre.reverse ++
            getSubstitution pat rpre.reverse
              ((c :: (rest ++ b)).drop pat.length) v ++
            (c :: (rest ++ b)).drop pat.length
        else replaceFirstGo pat v (c :: rpre) (rest ++ b)
      from rfl]
    rw [hsw]
    simp only [Bool.false_eq_true, if_false]
    rw [ih hrest (c :: rpre) b]
    congr 1
    simp [List.reverse_cons, List.append_assoc]

/-- Replacement with a dollar-free value skips any leading segment inside
which the pattern mismatches at every offset. -/
theorem replaceFirst_skipSeg {a b pat v : List Char}
    (h : noHitIn pat a = true) (hv : '$' ∉ v) :
    replaceFirst (a ++ b) pat v = a ++ replaceFirst b pat v := by
  unfold replaceFirst
  rw [replaceFirstGo_skipSeg a h [] b, replaceFirstGo_shift hv]
  simp

/-- The scanning loop at an occurrence of the pattern emits the accumulated
prefix, the processed replacement and the rest. -/
theorem replaceFirstGo_hitAt {v b rpre : List Char} {p : Char}
    {pr : List Char} :
    replaceFirstGo (p :: pr) v rpre ((p :: pr) ++ b) =
      rpre.reverse ++ (getSubstitution (p :: pr) rpre.reverse b v ++ b) := by
  rw [List.cons_append]
  rw [show replaceFirstGo (p :: pr) v rpre (p :: (pr ++ b)) =
      if startsWithL (p :: pr) (p :: (pr ++ b)) = true then
        rpre.reverse ++
          getSubstitution (p :: pr) rpre.reverse
            ((p :: (pr ++ b)).drop (p :: pr).length) v ++
          (p :: (pr ++ b)).drop (p :: pr).length
      else replaceFirstGo (p :: pr) v (p :: rpre) (pr ++ b)
    from rfl]
  rw [show (p :: (pr ++ b)) = (p :: pr) ++ b from rfl, startsWithL_self_append]
  rw [show ((p :: pr) ++ b).drop (p :: pr).length = b from List.drop_left _ _]
  simp

/-- Replacing the first occurrence of the pattern after a segment inside
which it mismatches at every offset substitutes the processed replacement
there, with the prefix as the before-text and the rest as the
after-text. -/
theorem replaceFirst_hitAfter {a b pat v : List Char} {p : Char}
    {pr : List Char} (hpat : pat = p :: pr) (h : noHitIn pat a = true) :
    replaceFirst (a ++ (pat ++ b)) pat v =
      a ++ (getSubstitution pat a b v ++ b) := by
  subst hpat
  unfold replaceFirst
  rw [replaceFirstGo_skipSeg a h [] ((p :: pr) ++ b), List.append_nil,
    replaceFirstGo_hitAt, List.reverse_reverse]

/-- A replacement template consisting of just dollar-ampersand substitutes
back the matched search string itself. -/
theorem getSubstitution_amp (m b a : List Char) :
    getSubstitution m b a (cs "$&") = m := by
  rw [show getSubstitution m b a (cs "$&") =
      m ++ getSubstitution m b a [] from rfl]
  rw [show getSubstitution m b a [] = ([] : List Char) from rfl]
  exact List.append_nil m

/-- A substring of the right part occurs in the whole concatenation. -/
theorem containsSub_append_right :
    ∀ (x : List Char) {y pat : List Char}, containsSub y pat = true →
      containsSub (x ++ y) pat = true := by
  intro x
  induction x with
  | nil => intro y pat h; simpa using h
  | cons c rest ih =>
    intro y pat h
    rw [List.cons_append]
    rw [show containsSub (c :: (rest ++ y)) pat =
        (startsWithL pat (c :: (rest ++ y)) || containsSub (rest ++ y) pat)
      from rfl]
    rw [ih h]
    simp

/-- A pattern that is a prefix of the string occurs in it. -/
theorem containsSub_of_startsWithL {s pat : List Char}
    (h : startsWithL pat s = true) : containsSub s pat = true := by
  cases s with
  | nil =>
    rw [show containsSub [] pat = startsWithL pat [] from rfl]
    exact h
  | cons c rest =>
    rw [show containsSub (c :: rest) pat =
        (startsWithL pat (c :: rest) || containsSub rest pat) from rfl]
    rw [h]
    simp

/-- Appending a segment free of open braces on the left cannot create a
double open brace. -/
theorem containsSub_append_bb {x y : List Char} (hx : '\x7b' ∉ x)
    (hy : containsSub y (cs "\x7b\x7b") = false) :
    containsSub (x ++ y) (cs "\x7b\x7b") = false := by
  induction x with
  | nil => simpa using hy
  | cons c rest ih =>
    have hne : '\x7b' ≠ c := by
      intro e
      subst e
      exact hx (List.mem_cons_self _ _)
    have hc : ('\x7b' == c) = false := beq_eq_false_iff_ne.mpr hne
    rw [List.cons_append]
    unfold containsSub
    rw [show startsWithL (cs "\x7b\x7b") (c :: (rest ++ y)) =
        ('\x7b' == c && startsWithL (cs "\x7b") (rest ++ y)) from rfl, hc]
    simp only [Bool.false_and, Bool.false_or]
    exact ih (fun hm => hx (List.mem_cons_of_mem c hm))

/-- Deduplication only keeps elements of the original list. -/
theorem dedupFirst_sub :
    ∀ (n : Nat) (l : List String), l.length ≤ n →
      ∀ x, x ∈ dedupFirst l → x ∈ l := by
  intro n
  induction n with
  | zero =>
    intro l hl x hx
    cases l with
    | nil => simp [dedupFirst] at hx
    | cons a rest => simp at hl
  | succ n ih =>
    intro l hl x hx
    cases l with
    | nil => simp [dedupFirst] at hx
    | cons a rest =>
      unfold dedupFirst at hx
      split at hx
      · rcases List.mem_cons.mp hx with he | hm
        · exact he ▸ List.mem_cons_self a rest
        · have : x ∈ rest.filter (fun y => y ≠ a) :=
            ih _ (by
              have := List.length_filter_le (fun y => y ≠ a) rest
              have h2 : rest.length ≤ n := Nat.le_of_succ_le_succ hl
              omega) x hm
          exact List.mem_cons_of_mem a (List.mem_of_mem_filter this)
      · rcases List.mem_cons.mp hx with he | hm
        · exact he ▸ List.mem_cons_self a rest
        · exact List.mem_cons_of_mem a
            (ih _ (Nat.le_of_succ_le_succ hl) x hm)

/-- Names in the string bucket are names of schema columns. -/
theorem stringColsOf_names {schema : TableSchema} {x : String}
    (h : x ∈ stringColsOf schema) : ∃ c ∈ schema.columns, x = c.name := by
  unfold stringColsOf at h
  obtain ⟨c, hc, he⟩ := List.mem_map.mp h
  exact ⟨c, List.mem_of_mem_filter hc, he.symm⟩

/-- Names in the numeric bucket are names of schema columns. -/
theorem numericColsOf_names {schema : TableSchema} {x : String}
    (h : x ∈ numericColsOf schema) : ∃ c ∈ schema.columns, x = c.name := by
  unfold numericColsOf at h
  obtain ⟨c, hc, he⟩ := List.mem_map.mp h
  exact ⟨c, List.mem_of_mem_filter hc, he.symm⟩

/-- Names in the datetime bucket are names of schema columns. -/
theorem dateTimeColsOf_names {schema : TableSchema} {x : String}
    (h : x ∈ dateTimeColsOf schema) : ∃ c ∈ schema.columns, x = c.name := by
  unfold dateTimeColsOf at h
  obtain ⟨c, hc, he⟩ := List.mem_map.mp h
  exact ⟨c, List.mem_of_mem_filter hc, he.symm⟩

/-- Entries of the enum bucket come from schema columns. -/
theorem enumColsOf_entries {schema : TableSchema} {e : String × List String}
    (h : e ∈ enumColsOf schema) :
    ∃ c ∈ schema.columns, colIsEnum c = true ∧
      e = (c.name, c.enumValues.getD []) := by
  unfold enumColsOf at h
  obtain ⟨c, hc, he⟩ := List.mem_map.mp h
  exact ⟨c, List.mem_of_mem_filter hc, List.of_mem_filter hc, he.symm⟩

/-- Names in the unified column-reference union are names of schema
columns. -/
theorem uniqueColumnRefOf_names {schema : TableSchema} {x : String}
    (h : x ∈ uniqueColumnRefOf schema) : ∃ c ∈ schema.columns, x = c.name := by
  unfold uniqueColumnRefOf at h
  have h1 := dedupFirst_sub _ _ (Nat.le_refl _) x h
  have h2 := List.mem_of_mem_filter h1
  rcases List.mem_append.mp h2 with h3 | h4
  · rcases List.mem_append.mp h3 with h5 | h6
    · rcases List.mem_append.mp h5 with h7 | h8
      · exact stringColsOf_names h7
      · exact numericColsOf_names h8
    · exact dateTimeColsOf_names h6
  · obtain ⟨e, he, hx⟩ := List.mem_map.mp h4
    obtain ⟨c, hc, -, heq⟩ := enumColsOf_entries he
    exact ⟨c, hc, by rw [← hx, heq]⟩

/-- The resolved event-type list is never empty. -/
theorem eventTypesOf_ne_nil (schema : TableSchema) :
    eventTypesOf schema ≠ [] := by
  unfold eventTypesOf
  rcases hf : (enumColsOf schema).find? (fun e => e.1 == "type") with _ | e
  · rw [hf]; simp [KNOWN_EVENT_TYPES]
  · rw [hf]
    have he := List.mem_of_find?_eq_some hf
    obtain ⟨c, -, hce, heq⟩ := enumColsOf_entries he
    unfold colIsEnum at hce
    simp only [Option.map_some', Option.getD_some]
    rcases hev : c.enumValues with _ | vs
    · rw [hev] at hce; simp at hce
    · rw [hev] at hce
      simp only [decide_eq_true_eq] at hce
      rw [heq, hev]
      simp only [Option.getD_some]
      intro hnil
      rw [hnil] at hce
      simp at hce

/-- Values in the resolved event-type list are schema enum values or
members of the fallback list. -/
theorem eventTypesOf_mem {schema : TableSchema} {v : String}
    (h : v ∈ eventTypesOf schema) :
    (∃ c ∈ schema.columns, ∃ vs, c.enumValues = some vs ∧ v ∈ vs) ∨
      v ∈ KNOWN_EVENT_TYPES := by
  unfold eventTypesOf at h
  rcases hf : (enumColsOf schema).find? (fun e => e.1 == "type") with _ | e
  · rw [hf] at h
    simp only [Option.map_none', Option.getD_none] at h
    exact Or.inr h
  · rw [hf] at h
    simp only [Option.map_some', Option.getD_some] at h
    have he := List.mem_of_find?_eq_some hf
    obtain ⟨c, hc, hce, heq⟩ := enumColsOf_entries he
    unfold colIsEnum at hce
    rcases hev : c.enumValues with _ | vs
    · rw [hev] at hce; simp at hce
    · refine Or.inl ⟨c, hc, vs, hev, ?_⟩
      rw [heq, hev] at h
      simpa using h

/-- A Lark alternation of brace-free values contains no open brace. -/
theorem toLarkAlternatives_no_brace {vs : List String}
    (h : ∀ v ∈ vs, '\x7b' ∉ v.toList) : '\x7b' ∉ toLarkAlternatives vs := by
  induction vs with
  | nil => simp [toLarkAlternatives, joinSep]
  | cons x rest ih =>
    cases rest with
    | nil =>
      simp only [toLarkAlternatives, List.map_cons, List.map_nil, joinSep]
      intro hm
      rcases List.mem_append.mp hm with h1 | h2
      · rcases List.mem_append.mp h1 with h3 | h4
        · simp [cs] at h3
        · exact h (x) (List.mem_cons_self _ _) h4
      · simp [cs] at h2
    | cons y rest2 =>
      simp only [toLarkAlternatives, List.map_cons, joinSep] at ih ⊢
      intro hm
      rcases List.mem_append.mp hm with h1 | h2
      · rcases List.mem_append.mp h1 with h3 | h4
        · rcases List.mem_append.mp h3 with h5 | h6
          · rcases List.mem_append.mp h5 with h7 | h8
            · simp [cs] at h7
            · exact h x (List.mem_cons_self _ _) h8
          · simp [cs] at h6
        · simp [cs] at h4
      · exact ih (fun v hv => h v (List.mem_cons_of_mem x hv)) h2

/-- The STRING_COLS payload is a non-empty alternation and brace-free when
the schema's column names are. -/
theorem stringColsPayload_spec (schema : TableSchema)
    (hb : ∀ c ∈ schema.columns, '\x7b' ∉ c.name.toList) :
    (∃ vs, vs ≠ [] ∧ stringColsPayload schema = toLarkAlternatives vs) ∧
      '\x7b' ∉ stringColsPayload schema := by
  unfold stringColsPayload
  by_cases hpos : 0 < (stringColsOf schema).length
  · rw [if_pos hpos]
    refine ⟨⟨stringColsOf schema, List.length_pos.mp hpos, rfl⟩, ?_⟩
    refine toLarkAlternatives_no_brace ?_
    intro v hv
    obtain ⟨c, hc, he⟩ := stringColsOf_names hv
    exact he ▸ hb c hc
  · rw [if_neg hpos]
    exact ⟨⟨["actor_login"], by simp, by decide⟩, by decide⟩

/-- The NUMERIC_COLS payload is a non-empty alternation, brace-free when
the schema's column names are, and falls back to the single literal `id`
for a schema with no numeric columns. -/
theorem numericColsPayload_spec (schema : TableSchema)
    (hb : ∀ c ∈ schema.columns, '\x7b' ∉ c.name.toList) :
    (∃ vs, vs ≠ [] ∧ numericColsPayload schema = toLarkAlternatives vs ∧
      (numericColsOf schema = [] → vs = ["id"])) ∧
      '\x7b' ∉ numericColsPayload schema := by
  unfold numericColsPayload
  by_cases hpos : 0 < (numericColsOf schema).length
  · rw [if_pos hpos]
    refine ⟨⟨numericColsOf schema, List.length_pos.mp hpos, rfl, ?_⟩, ?_⟩
    · intro hnil
      rw [hnil] at hpos
      simp at hpos
    · refine toLarkAlternatives_no_brace ?_
      intro v hv
      obtain ⟨c, hc, he⟩ := numericColsOf_names hv
      exact he ▸ hb c hc
  · rw [if_neg hpos]
    exact ⟨⟨["id"], by simp, by decide, fun _ => rfl⟩, by decide⟩

/-- The COLUMN_REF payload is a non-empty alternation and brace-free when
the schema's column names are. -/
theorem columnRefPayload_spec (schema : TableSchema)
    (hb : ∀ c ∈ schema.columns, '\x7b' ∉ c.name.toList) :
    (∃ vs, vs ≠ [] ∧ columnRefPayload schema = toLarkAlternatives vs) ∧
      '\x7b' ∉ columnRefPayload schema := by
  unfold columnRefPayload
  by_cases hpos : 0 < (uniqueColumnRefOf schema).length
  · rw [if_pos hpos]
    refine ⟨⟨uniqueColumnRefOf schema, List.length_pos.mp hpos, rfl⟩, ?_⟩
    refine toLarkAlternatives_no_brace ?_
    intro v hv
    obtain ⟨c, hc, he⟩ := uniqueColumnRefOf_names hv
    exact he ▸ hb c hc
  · rw [if_neg hpos]
    exact ⟨⟨["id"], by simp, by decide⟩, by decide⟩

/-- The EVENT_TYPES payload is a non-empty alternation and brace-free when
the schema's enum values are. -/
theorem eventTypesPayload_spec (schema : TableSchema)
    (hb : ∀ c ∈ schema.columns, ∀ v ∈ c.enumValues.getD [],
      '\x7b' ∉ v.toList) :
    (∃ vs, vs ≠ [] ∧
      toLarkAlternatives (eventTypesOf schema) = toLarkAlternatives vs) ∧
      '\x7b' ∉ toLarkAlternatives (eventTypesOf schema) := by
  refine ⟨⟨eventTypesOf schema, eventTypesOf_ne_nil schema, rfl⟩, ?_⟩
  refine toLarkAlternatives_no_brace ?_
  intro v hv
  rcases eventTypesOf_mem hv with ⟨c, hc, vs, hvs, hm⟩ | hk
  · exact hb c hc v (by rw [hvs]; simpa using hm)
  · exact (by decide : ∀ v ∈ KNOWN_EVENT_TYPES, '\x7b' ∉ v.toList) v hk

/-- The ACTION_VALUES payload is a non-empty brace-free alternation. -/
theorem actionValuesPayload_spec :
    KNOWN_ACTION_VALUES ≠ [] ∧
      '\x7b' ∉ toLarkAlternatives KNOWN_ACTION_VALUES := by
  exact ⟨by decide, by decide⟩

/-- A Lark alternation of dollar-free values contains no dollar, so its
splice into the template is not rewritten by the replacement's dollar
substitution patterns. -/
theorem toLarkAlternatives_no_dollar {vs : List String}
    (h : ∀ v ∈ vs, '$' ∉ v.toList) : '$' ∉ toLarkAlternatives vs := by
  induction vs with
  | nil => simp [toLarkAlternatives, joinSep]
  | cons x rest ih =>
    cases rest with
    | nil =>
      simp only [toLarkAlternatives, List.map_cons, List.map_nil, joinSep]
      intro hm
      rcases List.mem_append.mp hm with h1 | h2
      · rcases List.mem_append.mp h1 with h3 | h4
        · simp [cs] at h3
        · exact h (x) (List.mem_cons_self _ _) h4
      · simp [cs] at h2
    | cons y rest2 =>
      simp only [toLarkAlternatives, List.map_cons, joinSep] at ih ⊢
      intro hm
      rcases List.mem_append.mp hm with h1 | h2
      · rcases List.mem_append.mp h1 with h3 | h4
        · rcases List.mem_append.mp h3 with h5 | h6
          · rcases List.mem_append.mp h5 with h7 | h8
            · simp [cs] at h7
            · exact h x (List.mem_cons_self _ _) h8
          · simp [cs] at h6
        · simp [cs] at h4
      · exact ih (fun v hv => h v (List.mem_cons_of_mem x hv)) h2

/-- The STRING_COLS payload is dollar-free when the schema's column names
are. -/
theorem stringColsPayload_no_dollar (schema : TableSchema)
    (hd : ∀ c ∈ schema.columns, '$' ∉ c.name.toList) :
    '$' ∉ stringColsPayload schema := by
  unfold stringColsPayload
  by_cases hpos : 0 < (stringColsOf schema).length
  · rw [if_pos hpos]
    refine toLarkAlternatives_no_dollar ?_
    intro v hv
    obtain ⟨c, hc, he⟩ := stringColsOf_names hv
    exact he ▸ hd c hc
  · rw [if_neg hpos]
    decide

/-- The NUMERIC_COLS payload is dollar-free when the schema's column names
are. -/
theorem numericColsPayload_no_dollar (schema : TableSchema)
    (hd : ∀ c ∈ schema.columns, '$' ∉ c.name.toList) :
    '$' ∉ numericColsPayload schema := by
  unfold numericColsPayload
  by_cases hpos : 0 < (numericColsOf schema).length
  · rw [if_pos hpos]
    refine toLarkAlternatives_no_dollar ?_
    intro v hv
    obtain ⟨c, hc, he⟩ := numericColsOf_names hv
    exact he ▸ hd c hc
  · rw [if_neg hpos]
    decide

/-- The COLUMN_REF payload is dollar-free when the schema's column names
are. -/
theorem columnRefPayload_no_dollar (schema : TableSchema)
    (hd : ∀ c ∈ schema.columns, '$' ∉ c.name.toList) :
    '$' ∉ columnRefPayload schema := by
  unfold columnRefPayload
  by_cases hpos : 0 < (uniqueColumnRefOf schema).length
  · rw [if_pos hpos]
    refine toLarkAlternatives_no_dollar ?_
    intro v hv
    obtain ⟨c, hc, he⟩ := uniqueColumnRefOf_names hv
    exact he ▸ hd c hc
  · rw [if_neg hpos]
    decide

/-- The EVENT_TYPES payload is dollar-free when the schema's enum values
are. -/
theorem eventTypesPayload_no_dollar (schema : TableSchema)
    (hd : ∀ c ∈ schema.columns, ∀ v ∈ c.enumValues.getD [],
      '$' ∉ v.toList) :
    '$' ∉ toLarkAlternatives (eventTypesOf schema) := by
  refine toLarkAlternatives_no_dollar ?_
  intro v hv
  rcases eventTypesOf_mem hv with ⟨c, hc, vs, hvs, hm⟩ | hk
  · exact hd c hc v (by rw [hvs]; simpa using hm)
  · exact (by decide : ∀ v ∈ KNOWN_EVENT_TYPES, '$' ∉ v.toList) v hk

/-- The ACTION_VALUES payload is dollar-free. -/
theorem actionValuesPayload_no_dollar :
    '$' ∉ toLarkAlternatives KNOWN_ACTION_VALUES := by
  decide

set_option maxRecDepth 100000

/-- C1: the verifier rejects all six disallowed query strings: DDL, SELECT
star, multi-statement chaining, joins, subqueries via WITH, and
system-table references. -/
theorem C1_negative_coverage :
    isValidGrammarSQL (cs "DROP TABLE github_events") = false ∧
    isValidGrammarSQL (cs "SELECT * FROM github_events") = false ∧
    isValidGrammarSQL (cs "SELECT 1; DROP TABLE github_events") = false ∧
    isValidGrammarSQL (cs "SELECT a.x FROM github_events a JOIN t b ON a.x=b.x") = false ∧
    isValidGrammarSQL (cs "WITH t AS (SELECT 1) SELECT * FROM t") = false ∧
    isValidGrammarSQL (cs "SELECT * FROM system.processes") = false := by
  refine ⟨?_, ?_, ?_, ?_, ?_, ?_⟩ <;> decide

/-- C4: the three showcase queries are accepted: the parse consumes the
whole input, the root rule is exactly `query`, and the membership test
returns true. -/
theorem C4_positive_coverage :
    ((parseQuery (cs "SELECT count() AS total FROM github_events WHERE type = 'PushEvent'")).map
      GrammarDerivationNode.rule = some "query") ∧
    isValidGrammarSQL (cs "SELECT count() AS total FROM github_events WHERE type = 'PushEvent'") = true ∧
    ((parseQuery (cs "SELECT repo_name, count() AS pushes FROM github_events WHERE type = 'PushEvent' GROUP BY repo_name ORDER BY pushes DESC LIMIT 10")).map
      GrammarDerivationNode.rule = some "query") ∧
    isValidGrammarSQL (cs "SELECT repo_name, count() AS pushes FROM github_events WHERE type = 'PushEvent' GROUP BY repo_name ORDER BY pushes DESC LIMIT 10") = true ∧
    ((parseQuery (cs "SELECT toStartOfHour(created_at) AS hour, count() AS events FROM github_events GROUP BY hour ORDER BY hour ASC")).map
      GrammarDerivationNode.rule = some "query") ∧
    isValidGrammarSQL (cs "SELECT toStartOfHour(created_at) AS hour, count() AS events FROM github_events GROUP BY hour ORDER BY hour ASC") = true := by
  refine ⟨?_, ?_, ?_, ?_, ?_, ?_⟩ <;> decide

/-- C5: the clause loops swallow a separator they cannot roll back, so a
query with a dangling ` AND ` before GROUP BY (note the two spaces) is
accepted, and likewise a SELECT list with a dangling `, ` before FROM. -/
theorem C5_dangling_separators :
    isValidGrammarSQL
      (cs "SELECT count() AS c FROM github_events WHERE id = 5 AND  GROUP BY x") = true ∧
    isValidGrammarSQL (cs "SELECT id,  FROM github_events") = true := by
  exact ⟨by decide, by decide⟩

/-- C10: a valid grammar prefix followed by garbage yields a non-null tree
tagged `query (partial)`, which the membership test rejects. -/
theorem C10_partial_parse :
    ((parseQuery (cs "SELECT count() AS total FROM github_events EXTRA_GARBAGE")).map
      GrammarDerivationNode.rule = some "query (partial)") ∧
    isValidGrammarSQL (cs "SELECT count() AS total FROM github_events EXTRA_GARBAGE") = false := by
  exact ⟨by decide, by decide⟩

/-- C3 counterexample: the claim that the accepted root's matched text
equals the trimmed input fails on an input with leading whitespace — the
root's matched text is the original untrimmed string. -/
theorem C3_counterexample :
    isValidGrammarSQL (cs " SELECT id FROM github_events") = true ∧
    (parseQuery (cs " SELECT id FROM github_events")).map
      GrammarDerivationNode.matchedText = some (cs " SELECT id FROM github_events") ∧
    (parseQuery (cs " SELECT id FROM github_events")).map
      GrammarDerivationNode.matchedText ≠ some (trimL (cs " SELECT id FROM github_events")) := by
  refine ⟨by decide, by decide, by decide⟩

/-- C3 amended: for every input on which parseQuery returns a tree (in
particular every accepted input), the root's matched text is the original
input string exactly as given; it equals the trimmed input whenever the
input carries no surrounding whitespace. -/
theorem C3_root_matched_text :
    ∀ (sql : List Char) (n : GrammarDerivationNode),
      parseQuery sql = some n → n.matchedText = sql := by
  intro sql n h
  unfold parseQuery at h
  rcases h1 : parseSelectClause ⟨trimL sql, 0⟩ with ⟨o1, s1⟩
  rw [h1] at h
  cases o1 with
  | none => simp at h
  | some sc =>
    dsimp only at h
    rcases h2 : parseFromClause s1 with ⟨o2, s2⟩
    rw [h2] at h
    cases o2 with
    | none => simp at h
    | some fc =>
      dsimp only at h
      rcases h3 : parseWhereClause s2 with ⟨w, s3⟩
      rw [h3] at h
      dsimp only at h
      rcases h4 : parseGroupClause s3 with ⟨g, s4⟩
      rw [h4] at h
      dsimp only at h
      rcases h5 : parseHavingClause s4 with ⟨hv, s5⟩
      rw [h5] at h
      dsimp only at h
      rcases h6 : parseOrderClause s5 with ⟨o, s6⟩
      rw [h6] at h
      dsimp only at h
      rcases h7 : parseLimitClause s6 with ⟨l, s7⟩
      rw [h7] at h
      dsimp only at h
      split at h <;> · cases h; rfl

/-- C3 witness: the amended statement applied to a concrete accepted
query. -/
theorem C3_witness :
    ∃ n, parseQuery (cs "SELECT id FROM github_events") = some n ∧
      n.matchedText = cs "SELECT id FROM github_events" := by
  refine ⟨node "query" (cs "SELECT id FROM github_events")
    [node "select_clause" (cs "SELECT id")
      [node "select_item" (cs "id") [node "column_ref" (cs "id") []]],
     node "from_clause" (cs "FROM github_events") []], by rfl, ?_⟩
  exact C3_root_matched_text (cs "SELECT id FROM github_events") _ (by rfl)

/-- Shape of a finished order item: always a success tagged `order_item`,
with the base expression first and an optional direction child. -/
theorem orderItemFinish_shape {base : GrammarDerivationNode} {s t : ParseState}
    {o : Option GrammarDerivationNode}
    (h : orderItemFinish base s = (o, t)) :
    ∃ n, o = some n ∧ n.rule = "order_item" ∧
      (n.children = [base] ∨
        ∃ d, n.children = [base, d] ∧ d.rule = "direction") := by
  unfold orderItemFinish at h
  rcases hm : s.matchLiteral (cs " DESC") with ⟨b, s1⟩
  rw [hm] at h
  cases b with
  | true =>
    dsimp only at h
    cases h
    exact ⟨_, rfl, rfl, Or.inr ⟨_, rfl, rfl⟩⟩
  | false =>
    dsimp only at h
    rcases hm2 : s1.matchLiteral (cs " ASC") with ⟨b2, s2⟩
    rw [hm2] at h
    cases b2 with
    | true =>
      dsimp only at h
      cases h
      exact ⟨_, rfl, rfl, Or.inr ⟨_, rfl, rfl⟩⟩
    | false =>
      dsimp only at h
      cases h
      exact ⟨_, rfl, rfl, Or.inl rfl⟩

/-- C6 counterexample: the claim that group and order items are only
column references or date-truncation expressions fails — `parseGroupItem`
accepts the bare identifier `zzz` as an alias child, and `parseOrderItem`
accepts the aggregate expression `count()`. -/
theorem C6_counterexample :
    ((parseGroupItem ⟨cs "zzz", 0⟩).1.map
      (fun n => n.children.map GrammarDerivationNode.rule) = some ["alias"]) ∧
    ((parseOrderItem ⟨cs "count()", 0⟩).1.map
      (fun n => n.children.map GrammarDerivationNode.rule) = some ["agg_expr"]) := by
  exact ⟨by decide, by decide⟩

/-- C6 amended: a group item is a date-truncation expression, a column
reference, or an alias-like identifier (tried in that order); an order
item is an aggregate expression, a column reference, or an alias (in that
order), optionally followed by an ` ASC` or ` DESC` direction child. -/
theorem C6_group_order_items :
    (∀ (s t : ParseState) (n : GrammarDerivationNode),
      parseGroupItem s = (some n, t) →
      n.rule = "group_item" ∧ ∃ c, n.children = [c] ∧
        (c.rule = "date_trunc_expr" ∨ c.rule = "column_ref" ∨
          c.rule = "alias")) ∧
    (∀ (s t : ParseState) (n : GrammarDerivationNode),
      parseOrderItem s = (some n, t) →
      n.rule = "order_item" ∧ ∃ c rest, n.children = c :: rest ∧
        (c.rule = "agg_expr" ∨ c.rule = "column_ref" ∨ c.rule = "alias") ∧
        (rest = [] ∨ ∃ d, rest = [d] ∧ d.rule = "direction")) := by
  constructor
  · intro s t n h
    unfold parseGroupItem at h
    rcases hd : parseDateTruncExpr s with ⟨dopt, s1⟩
    rw [hd] at h
    cases dopt with
    | some dt =>
      dsimp only at h
      cases h
      exact ⟨rfl, dt, rfl, Or.inl (parseDateTruncExpr_rule hd)⟩
    | none =>
      dsimp only at h
      rcases hc : parseColumnRef s1 with ⟨co, s2⟩
      rw [hc] at h
      cases co with
      | some colRef =>
        dsimp only at h
        cases h
        exact ⟨rfl, colRef, rfl, Or.inr (Or.inl (parseColumnRef_rule hc))⟩
      | none =>
        dsimp only at h
        rcases ha : parseAlias s2 with ⟨ao, s3⟩
        rw [ha] at h
        cases ao with
        | some al =>
          dsimp only at h
          cases h
          exact ⟨rfl, al, rfl, Or.inr (Or.inr (parseAlias_rule ha))⟩
        | none => simp at h
  · intro s t n h
    unfold parseOrderItem at h
    rcases hg : parseAggExpr s with ⟨go, s1⟩
    rw [hg] at h
    cases go with
    | some base =>
      dsimp only at h
      obtain ⟨m, hm, hr, hch⟩ := orderItemFinish_shape h
      cases hm
      refine ⟨hr, base, ?_⟩
      rcases hch with h1 | ⟨d, h1, h2⟩
      · exact ⟨[], h1, Or.inl (parseAggExpr_rule hg), Or.inl rfl⟩
      · exact ⟨[d], h1, Or.inl (parseAggExpr_rule hg), Or.inr ⟨d, rfl, h2⟩⟩
    | none =>
      dsimp only at h
      rcases hc : parseColumnRef s1 with ⟨co, s2⟩
      rw [hc] at h
      cases co with
      | some base =>
        dsimp only at h
        obtain ⟨m, hm, hr, hch⟩ := orderItemFinish_shape h
        cases hm
        refine ⟨hr, base, ?_⟩
        rcases hch with h1 | ⟨d, h1, h2⟩
        · exact ⟨[], h1, Or.inr (Or.inl (parseColumnRef_rule hc)), Or.inl rfl⟩
        · exact ⟨[d], h1, Or.inr (Or.inl (parseColumnRef_rule hc)),
            Or.inr ⟨d, rfl, h2⟩⟩
      | none =>
        dsimp only at h
        rcases ha : parseAlias s2 with ⟨ao, s3⟩
        rw [ha] at h
        cases ao with
        | some base =>
          dsimp only at h
          obtain ⟨m, hm, hr, hch⟩ := orderItemFinish_shape h
          cases hm
          refine ⟨hr, base, ?_⟩
          rcases hch with h1 | ⟨d, h1, h2⟩
          · exact ⟨[], h1, Or.inr (Or.inr (parseAlias_rule ha)), Or.inl rfl⟩
          · exact ⟨[d], h1, Or.inr (Or.inr (parseAlias_rule ha)),
              Or.inr ⟨d, rfl, h2⟩⟩
        | none => simp at h

/-- C6 witness: the amended statement applied to concrete group and order
items. -/
theorem C6_witness :
    ((node "group_item" (cs "repo_name")
        [node "column_ref" (cs "repo_name") []]).rule = "group_item" ∧
      ∃ c, (node "group_item" (cs "repo_name")
          [node "column_ref" (cs "repo_name") []]).children = [c] ∧
        (c.rule = "date_trunc_expr" ∨ c.rule = "column_ref" ∨
          c.rule = "alias")) ∧
    ((node "order_item" (cs "pushes DESC")
        [node "alias" (cs "pushes") [],
         node "direction" (cs "DESC") []]).rule = "order_item" ∧
      ∃ c rest, (node "order_item" (cs "pushes DESC")
          [node "alias" (cs "pushes") [],
           node "direction" (cs "DESC") []]).children = c :: rest ∧
        (c.rule = "agg_expr" ∨ c.rule = "column_ref" ∨ c.rule = "alias") ∧
        (rest = [] ∨ ∃ d, rest = [d] ∧ d.rule = "direction")) := by
  constructor
  · exact C6_group_order_items.1 ⟨cs "repo_name", 0⟩ ⟨cs "repo_name", 9⟩ _ (by rfl)
  · exact C6_group_order_items.2 ⟨cs "pushes DESC", 0⟩ ⟨cs "pushes DESC", 11⟩ _
      (by rfl)

/-- Stepping lemma: a literal whose match fails is skipped by the
alternatives loop. -/
theorem tryLiterals_step_false {r : String} {lit : List Char}
    {rest : List (List Char)} {s : ParseState}
    (h : startsWithL lit (s.input.drop s.pos) = false) :
    tryLiterals r (lit :: rest) s = tryLiterals r rest s := by
  simp [tryLiterals, ParseState.matchLiteral, h]

/-- Stepping lemma: a literal whose match succeeds is taken by the
alternatives loop, advancing the cursor by its length. -/
theorem tryLiterals_step_true {r : String} {lit : List Char}
    {rest : List (List Char)} {s : ParseState}
    (h : startsWithL lit (s.input.drop s.pos) = true) :
    tryLiterals r (lit :: rest) s =
      (some (node r lit []), ⟨s.input, s.pos + lit.length⟩) := by
  simp [tryLiterals, ParseState.matchLiteral, h]

/-- C8: any input beginning with a two-character comparison operator
parses that full operator — never its one-character suffix alone — and the
concrete condition `id != 5` parses `!=` as a single operator token. -/
theorem C8_compare_op_order :
    (∀ s : ParseState, startsWithL (cs "!=") s.remaining = true →
      parseCompareOp s =
        (some (node "compare_op" (cs "!=") []), ⟨s.input, s.pos + 2⟩)) ∧
    (∀ s : ParseState, startsWithL (cs ">=") s.remaining = true →
      parseCompareOp s =
        (some (node "compare_op" (cs ">=") []), ⟨s.input, s.pos + 2⟩)) ∧
    (∀ s : ParseState, startsWithL (cs "<=") s.remaining = true →
      parseCompareOp s =
        (some (node "compare_op" (cs "<=") []), ⟨s.input, s.pos + 2⟩)) ∧
    parseNumericCondition ⟨cs "id != 5", 0⟩ =
      (some (node "numeric_condition" (cs "id != 5")
        [node "numeric_col" (cs "id") [], node "compare_op" (cs "!=") [],
         node "number" (cs "5") []]), ⟨cs "id != 5", 7⟩) := by
  refine ⟨?_, ?_, ?_, by rfl⟩
  · intro s h
    simp only [ParseState.remaining] at h
    exact tryLiterals_step_true h
  · intro s h
    simp only [ParseState.remaining] at h
    rcases hr : s.input.drop s.pos with _ | ⟨c, rest⟩
    · rw [hr] at h; simp [cs, startsWithL] at h
    · rw [hr] at h
      have h' : ('>' == c && startsWithL (cs "=") rest) = true := h
      simp only [Bool.and_eq_true, beq_iff_eq] at h'
      obtain ⟨hc, htail⟩ := h'
      subst hc
      have e1 : startsWithL (cs "!=") (s.input.drop s.pos) = false := by
        rw [hr]; rfl
      have e2 : startsWithL (cs ">=") (s.input.drop s.pos) = true := by
        rw [hr]; exact h
      calc parseCompareOp s
          = tryLiterals "compare_op"
              [cs ">=", cs "<=", cs "=", cs ">", cs "<"] s :=
            tryLiterals_step_false e1
        _ = (some (node "compare_op" (cs ">=") []), ⟨s.input, s.pos + 2⟩) :=
            tryLiterals_step_true e2
  · intro s h
    simp only [ParseState.remaining] at h
    rcases hr : s.input.drop s.pos with _ | ⟨c, rest⟩
    · rw [hr] at h; simp [cs, startsWithL] at h
    · rw [hr] at h
      have h' : ('<' == c && startsWithL (cs "=") rest) = true := h
      simp only [Bool.and_eq_true, beq_iff_eq] at h'
      obtain ⟨hc, htail⟩ := h'
      subst hc
      have e1 : startsWithL (cs "!=") (s.input.drop s.pos) = false := by
        rw [hr]; rfl
      have e2 : startsWithL (cs ">=") (s.input.drop s.pos) = false := by
        rw [hr]; rfl
      have e3 : startsWithL (cs "<=") (s.input.drop s.pos) = true := by
        rw [hr]; exact h
      calc parseCompareOp s
          = tryLiterals "compare_op"
              [cs ">=", cs "<=", cs "=", cs ">", cs "<"] s :=
            tryLiterals_step_false e1
        _ = tryLiterals "compare_op" [cs "<=", cs "=", cs ">", cs "<"] s :=
            tryLiterals_step_false e2
        _ = (some (node "compare_op" (cs "<=") []), ⟨s.input, s.pos + 2⟩) :=
            tryLiterals_step_true e3

/-- C8 witness: the universally quantified parts applied at concrete
states whose remainders begin with the two-character operators. -/
theorem C8_witness :
    parseCompareOp ⟨cs "!= 5", 0⟩ =
      (some (node "compare_op" (cs "!=") []), ⟨cs "!= 5", 2⟩) ∧
    parseCompareOp ⟨cs ">= 5", 0⟩ =
      (some (node "compare_op" (cs ">=") []), ⟨cs ">= 5", 2⟩) ∧
    parseCompareOp ⟨cs "<= 5", 0⟩ =
      (some (node "compare_op" (cs "<=") []), ⟨cs "<= 5", 2⟩) :=
  ⟨C8_compare_op_order.1 ⟨cs "!= 5", 0⟩ (by decide),
   C8_compare_op_order.2.1 ⟨cs ">= 5", 0⟩ (by decide),
   C8_compare_op_order.2.2.1 ⟨cs "<= 5", 0⟩ (by decide)⟩

/-- C9: the no-side-effects-on-failure contract. For every parser state,
every rule function that returns null leaves the cursor at the entry
position (all consumed input is rolled back); since every rule function is
a total Lean function, normal rejection also cannot raise. The conjuncts
cover the clause parsers, the four condition parsers, the item and
expression parsers, and all terminal parsers. -/
theorem C9_no_side_effects_on_failure :
    (∀ s : ParseState, (parseSelectClause s).1 = none →
      (parseSelectClause s).2.pos = s.pos) ∧
    (∀ s : ParseState, (parseSelectItem s).1 = none →
      (parseSelectItem s).2.pos = s.pos) ∧
    (∀ s : ParseState, (parseAggExpr s).1 = none →
      (parseAggExpr s).2.pos = s.pos) ∧
    (∀ s : ParseState, (parseFromClause s).1 = none →
      (parseFromClause s).2.pos = s.pos) ∧
    (∀ s : ParseState, (parseWhereClause s).1 = none →
      (parseWhereClause s).2.pos = s.pos) ∧
    (∀ s : ParseState, (parseStringCondition s).1 = none →
      (parseStringCondition s).2.pos = s.pos) ∧
    (∀ s : ParseState, (parseNumericCondition s).1 = none →
      (parseNumericCondition s).2.pos = s.pos) ∧
    (∀ s : ParseState, (parseDatetimeCondition s).1 = none →
      (parseDatetimeCondition s).2.pos = s.pos) ∧
    (∀ s : ParseState, (parseEnumCondition s).1 = none →
      (parseEnumCondition s).2.pos = s.pos) ∧
    (∀ s : ParseState, (parseCondition s).1 = none →
      (parseCondition s).2.pos = s.pos) ∧
    (∀ s : ParseState, (parseGroupClause s).1 = none →
      (parseGroupClause s).2.pos = s.pos) ∧
    (∀ s : ParseState, (parseGroupItem s).1 = none →
      (parseGroupItem s).2.pos = s.pos) ∧
    (∀ s : ParseState, (parseHavingClause s).1 = none →
      (parseHavingClause s).2.pos = s.pos) ∧
    (∀ s : ParseState, (parseOrderClause s).1 = none →
      (parseOrderClause s).2.pos = s.pos) ∧
    (∀ s : ParseState, (parseOrderItem s).1 = none →
      (parseOrderItem s).2.pos = s.pos) ∧
    (∀ s : ParseState, (parseLimitClause s).1 = none →
      (parseLimitClause s).2.pos = s.pos) ∧
    (∀ s : ParseState, (parseColumnRef s).1 = none →
      (parseColumnRef s).2.pos = s.pos) ∧
    (∀ s : ParseState, (parseAggFunc s).1 = none →
      (parseAggFunc s).2.pos = s.pos) ∧
    (∀ s : ParseState, (parseDateTruncExpr s).1 = none →
      (parseDateTruncExpr s).2.pos = s.pos) ∧
    (∀ s : ParseState, (parseCompareOp s).1 = none →
      (parseCompareOp s).2.pos = s.pos) ∧
    (∀ s : ParseState, (parseNumber s).1 = none →
      (parseNumber s).2.pos = s.pos) ∧
    (∀ s : ParseState, (parseAlias s).1 = none →
      (parseAlias s).2.pos = s.pos) ∧
    (∀ s : ParseState, (parseStringValue s).1 = none →
      (parseStringValue s).2.pos = s.pos) ∧
    (∀ s : ParseState, (parseDateLiteral s).1 = none →
      (parseDateLiteral s).2.pos = s.pos) := by
  refine ⟨fun s h => parseSelectClause_fail (by rw [← h]),
    fun s h => parseSelectItem_fail (by rw [← h]),
    fun s h => parseAggExpr_fail (by rw [← h]),
    fun s h => by
      have e : (parseFromClause s).2 = s :=
        parseFromClause_fail (t := (parseFromClause s).2) (by rw [← h])
      rw [e],
    fun s h => parseWhereClause_fail (by rw [← h]),
    fun s h => parseStringCondition_fail (by rw [← h]),
    fun s h => parseNumericCondition_fail (by rw [← h]),
    fun s h => parseDatetimeCondition_fail (by rw [← h]),
    fun s h => parseEnumCondition_fail (by rw [← h]),
    fun s h => parseCondition_fail (by rw [← h]),
    fun s h => parseGroupClause_fail (by rw [← h]),
    fun s h => parseGroupItem_fail (by rw [← h]),
    fun s h => parseHavingClause_fail (by rw [← h]),
    fun s h => parseOrderClause_fail (by rw [← h]),
    fun s h => parseOrderItem_fail (by rw [← h]),
    fun s h => parseLimitClause_fail (by rw [← h]),
    fun s h => parseColumnRef_fail (by rw [← h]),
    fun s h => by
      have e : (parseAggFunc s).2 = s :=
        parseAggFunc_fail (t := (parseAggFunc s).2) (by rw [← h])
      rw [e],
    fun s h => by
      have e : (parseDateTruncExpr s).2 = s :=
        parseDateTruncExpr_fail (t := (parseDateTruncExpr s).2) (by rw [← h])
      rw [e],
    fun s h => by
      have e : (parseCompareOp s).2 = s :=
        parseCompareOp_fail (t := (parseCompareOp s).2) (by rw [← h])
      rw [e],
    fun s h => by
      have e : (parseNumber s).2 = s :=
        parseNumber_fail (t := (parseNumber s).2) (by rw [← h])
      rw [e],
    fun s h => by
      have e : (parseAlias s).2 = s :=
        parseAlias_fail (t := (parseAlias s).2) (by rw [← h])
      rw [e],
    fun s h => by
      have e : (parseStringValue s).2 = s :=
        parseStringValue_fail (t := (parseStringValue s).2) (by rw [← h])
      rw [e],
    fun s h => by
      have e : (parseDateLiteral s).2 = s :=
        parseDateLiteral_fail (t := (parseDateLiteral s).2) (by rw [← h])
      rw [e]⟩

/-- C9 witness: the contract applied to a concrete rejecting state. -/
theorem C9_witness :
    (parseSelectClause ⟨cs "DROP TABLE github_events", 0⟩).1 = none ∧
    (parseSelectClause ⟨cs "DROP TABLE github_events", 0⟩).2.pos = 0 :=
  ⟨by rfl,
   C9_no_side_effects_on_failure.1 ⟨cs "DROP TABLE github_events", 0⟩
     (by rfl)⟩

/-- Every string derivable from the materialized grammar's start rule
begins with the literal `SELECT ` emitted by the required select clause. -/
theorem LStart_starts_with_select {s : List Char} (h : LStart s) :
    ∃ t, s = cs "SELECT " ++ t := by
  obtain ⟨s1, s2, s3, s4, s5, s6, s7, hsc, -, -, -, -, -, -, hs⟩ := h
  obtain ⟨l, -, hsel⟩ := hsc
  subst hsel
  subst hs
  exact ⟨l ++ s2 ++ s3 ++ s4 ++ s5 ++ s6 ++ s7, by
    simp [List.append_assoc]⟩

/-- C2: the verifier and the materialized grammar do not define the same
language — the verifier trims its input and accepts a string with leading
whitespace, while every string derivable from the grammar's start rule
begins with `SELECT `, so the accepted string is not derivable. -/
theorem C2_verifier_grammar_divergence :
    isValidGrammarSQL (cs " SELECT id FROM github_events") = true ∧
    ¬ LStart (cs " SELECT id FROM github_events") := by
  refine ⟨by decide, fun h => ?_⟩
  obtain ⟨t, ht⟩ := LStart_starts_with_select h
  have h2 : some ' ' = some 'S' := by
    calc some ' ' = (cs " SELECT id FROM github_events").head? := by rfl
      _ = (cs "SELECT " ++ t).head? := by rw [ht]
      _ = some 'S' := by rfl
  simp at h2

/-- C7 counterexample: two schemas with non-empty table name and column
list for which buildGrammar leaves a dangling placeholder in its output.
With a table name that is itself a placeholder token, the token is spliced
into from_clause and then consumed by the later first-occurrence
replacement, orphaning the real string_col rule's placeholder; with the
table name dollar-ampersand, the ECMAScript dollar substitution re-inserts
the matched TABLE_NAME token itself. -/
theorem C7_counterexample :
    ("\x7b\x7bSTRING_COLS\x7d\x7d" : String) ≠ "" ∧
    (⟨"\x7b\x7bSTRING_COLS\x7d\x7d",
        [⟨"a", "String", none⟩]⟩ : TableSchema).columns ≠ [] ∧
    containsSub
      (buildGrammar ⟨"\x7b\x7bSTRING_COLS\x7d\x7d", [⟨"a", "String", none⟩]⟩)
      (cs "\x7b\x7b") = true ∧
    ("$&" : String) ≠ "" ∧
    containsSub (buildGrammar ⟨"$&", [⟨"a", "String", none⟩]⟩)
      (cs "\x7b\x7bTABLE_NAME\x7d\x7d") = true := by
  have hc0 : cs "\x7b\x7bTABLE_NAME\x7d\x7d" =
      '\x7b' :: cs "\x7bTABLE_NAME\x7d\x7d" := rfl
  have hc1 : cs "\x7b\x7bSTRING_COLS\x7d\x7d" =
      '\x7b' :: cs "\x7bSTRING_COLS\x7d\x7d" := rfl
  have hc2 : cs "\x7b\x7bNUMERIC_COLS\x7d\x7d" =
      '\x7b' :: cs "\x7bNUMERIC_COLS\x7d\x7d" := rfl
  have hc3 : cs "\x7b\x7bCOLUMN_REF\x7d\x7d" =
      '\x7b' :: cs "\x7bCOLUMN_REF\x7d\x7d" := rfl
  have hc4 : cs "\x7b\x7bEVENT_TYPES\x7d\x7d" =
      '\x7b' :: cs "\x7bEVENT_TYPES\x7d\x7d" := rfl
  have hc5 : cs "\x7b\x7bACTION_VALUES\x7d\x7d" =
      '\x7b' :: cs "\x7bACTION_VALUES\x7d\x7d" := rfl
  have hb0 : '\x7b' ∉ tmplChunk0 := by decide
  have hb1 : '\x7b' ∉ tmplChunk1 := by decide
  have hb2 : '\x7b' ∉ tmplChunk2 := by decide
  have hb3 : '\x7b' ∉ tmplChunk3 := by decide
  have hb4 : '\x7b' ∉ tmplChunk4 := by decide
  have hb5 : '\x7b' ∉ tmplChunk5 := by decide
  refine ⟨by decide, List.cons_ne_nil _ _, ?_, by decide, ?_⟩
  · -- the table name is itself the STRING_COLS placeholder token: it is
    -- spliced into from_clause by the first replacement and then consumed
    -- by the STRING_COLS replacement, so the real string_col rule keeps a
    -- double open brace.
    have hdtn : '$' ∉ cs "\x7b\x7bSTRING_COLS\x7d\x7d" := by decide
    have hv1 : '$' ∉ stringColsPayload
        ⟨"\x7b\x7bSTRING_COLS\x7d\x7d", [⟨"a", "String", none⟩]⟩ := by decide
    have hv2 : '$' ∉ numericColsPayload
        ⟨"\x7b\x7bSTRING_COLS\x7d\x7d", [⟨"a", "String", none⟩]⟩ := by decide
    have hv3 : '$' ∉ columnRefPayload
        ⟨"\x7b\x7bSTRING_COLS\x7d\x7d", [⟨"a", "String", none⟩]⟩ :=
      columnRefPayload_no_dollar _ (by decide)
    have hv4 : '$' ∉ toLarkAlternatives (eventTypesOf
        ⟨"\x7b\x7bSTRING_COLS\x7d\x7d", [⟨"a", "String", none⟩]⟩) := by decide
    have hv5 : '$' ∉ toLarkAlternatives KNOWN_ACTION_VALUES := by decide
    have hp1 : '\x7b' ∉ stringColsPayload
        ⟨"\x7b\x7bSTRING_COLS\x7d\x7d", [⟨"a", "String", none⟩]⟩ := by decide
    have hp2 : '\x7b' ∉ numericColsPayload
        ⟨"\x7b\x7bSTRING_COLS\x7d\x7d", [⟨"a", "String", none⟩]⟩ := by decide
    have hp3 : '\x7b' ∉ columnRefPayload
        ⟨"\x7b\x7bSTRING_COLS\x7d\x7d", [⟨"a", "String", none⟩]⟩ :=
      (columnRefPayload_spec _ (by decide)).2
    have hp4 : '\x7b' ∉ toLarkAlternatives (eventTypesOf
        ⟨"\x7b\x7bSTRING_COLS\x7d\x7d", [⟨"a", "String", none⟩]⟩) := by decide
    have n21 : noHitIn (cs "\x7b\x7bNUMERIC_COLS\x7d\x7d")
        (cs "\x7b\x7bSTRING_COLS\x7d\x7d") = true := by decide
    have n31 : noHitIn (cs "\x7b\x7bCOLUMN_REF\x7d\x7d")
        (cs "\x7b\x7bSTRING_COLS\x7d\x7d") = true := by decide
    have n41 : noHitIn (cs "\x7b\x7bEVENT_TYPES\x7d\x7d")
        (cs "\x7b\x7bSTRING_COLS\x7d\x7d") = true := by decide
    have n51 : noHitIn (cs "\x7b\x7bACTION_VALUES\x7d\x7d")
        (cs "\x7b\x7bSTRING_COLS\x7d\x7d") = true := by decide
    unfold buildGrammar GRAMMAR_TEMPLATE
    simp only [List.append_assoc]
    rw [show (⟨"\x7b\x7bSTRING_COLS\x7d\x7d",
        [⟨"a", "String", none⟩]⟩ : TableSchema).tableName.toList =
      cs "\x7b\x7bSTRING_COLS\x7d\x7d" from rfl]
    rw [replaceFirst_hitAfter hc0 (noHitIn_of_no_brace hc0 tmplChunk0 hb0),
      getSubstitution_no_dollar hdtn]
    rw [replaceFirst_skipSeg (noHitIn_of_no_brace hc1 tmplChunk0 hb0) hv1,
      replaceFirst_hit hc1 hv1]
    rw [replaceFirst_skipSeg (noHitIn_of_no_brace hc2 tmplChunk0 hb0) hv2,
      replaceFirst_skipSeg (noHitIn_of_no_brace hc2 _ hp1) hv2,
      replaceFirst_skipSeg (noHitIn_of_no_brace hc2 tmplChunk1 hb1) hv2,
      replaceFirst_skipSeg n21 hv2,
      replaceFirst_skipSeg (noHitIn_of_no_brace hc2 tmplChunk2 hb2) hv2,
      replaceFirst_hit hc2 hv2]
    rw [replaceFirst_skipSeg (noHitIn_of_no_brace hc3 tmplChunk0 hb0) hv3,
      replaceFirst_skipSeg (noHitIn_of_no_brace hc3 _ hp1) hv3,
      replaceFirst_skipSeg (noHitIn_of_no_brace hc3 tmplChunk1 hb1) hv3,
      replaceFirst_skipSeg n31 hv3,
      replaceFirst_skipSeg (noHitIn_of_no_brace hc3 tmplChunk2 hb2) hv3,
      replaceFirst_skipSeg (noHitIn_of_no_brace hc3 _ hp2) hv3,
      replaceFirst_skipSeg (noHitIn_of_no_brace hc3 tmplChunk3 hb3) hv3,
      replaceFirst_hit hc3 hv3]
    rw [replaceFirst_skipSeg (noHitIn_of_no_brace hc4 tmplChunk0 hb0) hv4,
      replaceFirst_skipSeg (noHitIn_of_no_brace hc4 _ hp1) hv4,
      replaceFirst_skipSeg (noHitIn_of_no_brace hc4 tmplChunk1 hb1) hv4,
      replaceFirst_skipSeg n41 hv4,
      replaceFirst_skipSeg (noHitIn_of_no_brace hc4 tmplChunk2 hb2) hv4,
      replaceFirst_skipSeg (noHitIn_of_no_brace hc4 _ hp2) hv4,
      replaceFirst_skipSeg (noHitIn_of_no_brace hc4 tmplChunk3 hb3) hv4,
      replaceFirst_skipSeg (noHitIn_of_no_brace hc4 _ hp3) hv4,
      replaceFirst_skipSeg (noHitIn_of_no_brace hc4 tmplChunk4 hb4) hv4,
      replaceFirst_hit hc4 hv4]
    rw [replaceFirst_skipSeg (noHitIn_of_no_brace hc5 tmplChunk0 hb0) hv5,
      replaceFirst_skipSeg (noHitIn_of_no_brace hc5 _ hp1) hv5,
      replaceFirst_skipSeg (noHitIn_of_no_brace hc5 tmplChunk1 hb1) hv5,
      replaceFirst_skipSeg n51 hv5,
      replaceFirst_skipSeg (noHitIn_of_no_brace hc5 tmplChunk2 hb2) hv5,
      replaceFirst_skipSeg (noHitIn_of_no_brace hc5 _ hp2) hv5,
      replaceFirst_skipSeg (noHitIn_of_no_brace hc5 tmplChunk3 hb3) hv5,
      replaceFirst_skipSeg (noHitIn_of_no_brace hc5 _ hp3) hv5,
      replaceFirst_skipSeg (noHitIn_of_no_brace hc5 tmplChunk4 hb4) hv5,
      replaceFirst_skipSeg (noHitIn_of_no_brace hc5 _ hp4) hv5,
      replaceFirst_skipSeg (noHitIn_of_no_brace hc5 tmplChunk5 hb5) hv5,
      replaceFirst_hit hc5 hv5]
    refine containsSub_append_right _ (containsSub_append_right _
      (containsSub_append_right _ (containsSub_of_startsWithL ?_)))
    rw [show cs "\x7b\x7bSTRING_COLS\x7d\x7d" =
        cs "\x7b\x7b" ++ cs "STRING_COLS\x7d\x7d" from rfl,
      List.append_assoc]
    exact startsWithL_self_append _ _
  · -- the table name dollar-ampersand is the ECMAScript substitution
    -- pattern for the matched search string, so the first replacement
    -- writes the TABLE_NAME placeholder token straight back into the
    -- output and no later replacement touches it.
    have hw1 : '$' ∉ stringColsPayload
        ⟨"$&", [⟨"a", "String", none⟩]⟩ := by decide
    have hw2 : '$' ∉ numericColsPayload
        ⟨"$&", [⟨"a", "String", none⟩]⟩ := by decide
    have hw3 : '$' ∉ columnRefPayload
        ⟨"$&", [⟨"a", "String", none⟩]⟩ :=
      columnRefPayload_no_dollar _ (by decide)
    have hw4 : '$' ∉ toLarkAlternatives (eventTypesOf
        ⟨"$&", [⟨"a", "String", none⟩]⟩) := by decide
    have hw5 : '$' ∉ toLarkAlternatives KNOWN_ACTION_VALUES := by decide
    have hq1 : '\x7b' ∉ stringColsPayload
        ⟨"$&", [⟨"a", "String", none⟩]⟩ := by decide
    have hq2 : '\x7b' ∉ numericColsPayload
        ⟨"$&", [⟨"a", "String", none⟩]⟩ := by decide
    have hq3 : '\x7b' ∉ columnRefPayload
        ⟨"$&", [⟨"a", "String", none⟩]⟩ :=
      (columnRefPayload_spec _ (by decide)).2
    have hq4 : '\x7b' ∉ toLarkAlternatives (eventTypesOf
        ⟨"$&", [⟨"a", "String", none⟩]⟩) := by decide
    have n10 : noHitIn (cs "\x7b\x7bSTRING_COLS\x7d\x7d")
        (cs "\x7b\x7bTABLE_NAME\x7d\x7d") = true := by decide
    have n20 : noHitIn (cs "\x7b\x7bNUMERIC_COLS\x7d\x7d")
        (cs "\x7b\x7bTABLE_NAME\x7d\x7d") = true := by decide
    have n30 : noHitIn (cs "\x7b\x7bCOLUMN_REF\x7d\x7d")
        (cs "\x7b\x7bTABLE_NAME\x7d\x7d") = true := by decide
    have n40 : noHitIn (cs "\x7b\x7bEVENT_TYPES\x7d\x7d")
        (cs "\x7b\x7bTABLE_NAME\x7d\x7d") = true := by decide
    have n50 : noHitIn (cs "\x7b\x7bACTION_VALUES\x7d\x7d")
        (cs "\x7b\x7bTABLE_NAME\x7d\x7d") = true := by decide
    unfold buildGrammar GRAMMAR_TEMPLATE
    simp only [List.append_assoc]
    rw [show (⟨"$&", [⟨"a", "String", none⟩]⟩ :
        TableSchema).tableName.toList = cs "$&" from rfl]
    rw [replaceFirst_hitAfter hc0 (noHitIn_of_no_brace hc0 tmplChunk0 hb0),
      getSubstitution_amp]
    rw [replaceFirst_skipSeg (noHitIn_of_no_brace hc1 tmplChunk0 hb0) hw1,
      replaceFirst_skipSeg n10 hw1,
      replaceFirst_skipSeg (noHitIn_of_no_brace hc1 tmplChunk1 hb1) hw1,
      replaceFirst_hit hc1 hw1]
    rw [replaceFirst_skipSeg (noHitIn_of_no_brace hc2 tmplChunk0 hb0) hw2,
      replaceFirst_skipSeg n20 hw2,
      replaceFirst_skipSeg (noHitIn_of_no_brace hc2 tmplChunk1 hb1) hw2,
      replaceFirst_skipSeg (noHitIn_of_no_brace hc2 _ hq1) hw2,
      replaceFirst_skipSeg (noHitIn_of_no_brace hc2 tmplChunk2 hb2) hw2,
      replaceFirst_hit hc2 hw2]
    rw [replaceFirst_skipSeg (noHitIn_of_no_brace hc3 tmplChunk0 hb0) hw3,
      replaceFirst_skipSeg n30 hw3,
      replaceFirst_skipSeg (noHitIn_of_no_brace hc3 tmplChunk1 hb1) hw3,
      replaceFirst_skipSeg (noHitIn_of_no_brace hc3 _ hq1) hw3,
      replaceFirst_skipSeg (noHitIn_of_no_brace hc3 tmplChunk2 hb2) hw3,
      replaceFirst_skipSeg (noHitIn_of_no_brace hc3 _ hq2) hw3,
      replaceFirst_skipSeg (noHitIn_of_no_brace hc3 tmplChunk3 hb3) hw3,
      replaceFirst_hit hc3 hw3]
    rw [replaceFirst_skipSeg (noHitIn_of_no_brace hc4 tmplChunk0 hb0) hw4,
      replaceFirst_skipSeg n40 hw4,
      replaceFirst_skipSeg (noHitIn_of_no_brace hc4 tmplChunk1 hb1) hw4,
      replaceFirst_skipSeg (noHitIn_of_no_brace hc4 _ hq1) hw4,
      replaceFirst_skipSeg (noHitIn_of_no_brace hc4 tmplChunk2 hb2) hw4,
      replaceFirst_skipSeg (noHitIn_of_no_brace hc4 _ hq2) hw4,
      replaceFirst_skipSeg (noHitIn_of_no_brace hc4 tmplChunk3 hb3) hw4,
      replaceFirst_skipSeg (noHitIn_of_no_brace hc4 _ hq3) hw4,
      replaceFirst_skipSeg (noHitIn_of_no_brace hc4 tmplChunk4 hb4) hw4,
      replaceFirst_hit hc4 hw4]
    rw [replaceFirst_skipSeg (noHitIn_of_no_brace hc5 tmplChunk0 hb0) hw5,
      replaceFirst_skipSeg n50 hw5,
      replaceFirst_skipSeg (noHitIn_of_no_brace hc5 tmplChunk1 hb1) hw5,
      replaceFirst_skipSeg (noHitIn_of_no_brace hc5 _ hq1) hw5,
      replaceFirst_skipSeg (noHitIn_of_no_brace hc5 tmplChunk2 hb2) hw5,
      replaceFirst_skipSeg (noHitIn_of_no_brace hc5 _ hq2) hw5,
      replaceFirst_skipSeg (noHitIn_of_no_brace hc5 tmplChunk3 hb3) hw5,
      replaceFirst_skipSeg (noHitIn_of_no_brace hc5 _ hq3) hw5,
      replaceFirst_skipSeg (noHitIn_of_no_brace hc5 tmplChunk4 hb4) hw5,
      replaceFirst_skipSeg (noHitIn_of_no_brace hc5 _ hq4) hw5,
      replaceFirst_skipSeg (noHitIn_of_no_brace hc5 tmplChunk5 hb5) hw5,
      replaceFirst_hit hc5 hw5]
    exact containsSub_append_right _ (containsSub_of_startsWithL
      (startsWithL_self_append _ _))

/-- C7 amended: for every TableSchema with non-empty tableName and
columns, provided the table name, the column names and the enum values
contain no open-brace character and no dollar character (so no ECMAScript
dollar substitution pattern can fire), buildGrammar's output decomposes as the
template's literal chunks around the table name and five non-empty
double-quoted alternations — in particular it has no remaining placeholder
token — and a schema with zero numeric columns receives the fallback
alternation consisting of the single literal `id`. -/
theorem C7_grammar_complete (schema : TableSchema)
    (htn : schema.tableName ≠ "")
    (hcols : schema.columns ≠ [])
    (hbtn : '\x7b' ∉ schema.tableName.toList)
    (hbname : ∀ c ∈ schema.columns, '\x7b' ∉ c.name.toList)
    (hbenum : ∀ c ∈ schema.columns, ∀ v ∈ c.enumValues.getD [],
      '\x7b' ∉ v.toList)
    (hdtn : '$' ∉ schema.tableName.toList)
    (hdname : ∀ c ∈ schema.columns, '$' ∉ c.name.toList)
    (hdenum : ∀ c ∈ schema.columns, ∀ v ∈ c.enumValues.getD [],
      '$' ∉ v.toList) :
    ∃ v1 v2 v3 v4 v5 : List String,
      v1 ≠ [] ∧ v2 ≠ [] ∧ v3 ≠ [] ∧ v4 ≠ [] ∧ v5 ≠ [] ∧
      buildGrammar schema =
        tmplChunk0 ++ schema.tableName.toList ++
        tmplChunk1 ++ toLarkAlternatives v1 ++
        tmplChunk2 ++ toLarkAlternatives v2 ++
        tmplChunk3 ++ toLarkAlternatives v3 ++
        tmplChunk4 ++ toLarkAlternatives v4 ++
        tmplChunk5 ++ toLarkAlternatives v5 ++ tmplChunk6 ∧
      containsSub (buildGrammar schema) (cs "\x7b\x7b") = false ∧
      (numericColsOf schema = [] → v2 = ["id"]) := by
  obtain ⟨⟨w1, hw1, he1⟩, hbr1⟩ := stringColsPayload_spec schema hbname
  obtain ⟨⟨w2, hw2, he2, hfb2⟩, hbr2⟩ := numericColsPayload_spec schema hbname
  obtain ⟨⟨w3, hw3, he3⟩, hbr3⟩ := columnRefPayload_spec schema hbname
  obtain ⟨⟨w4, hw4, he4⟩, hbr4⟩ := eventTypesPayload_spec schema hbenum
  obtain ⟨hw5, hbr5⟩ := actionValuesPayload_spec
  have hd1 : '$' ∉ stringColsPayload schema :=
    stringColsPayload_no_dollar schema hdname
  have hd2 : '$' ∉ numericColsPayload schema :=
    numericColsPayload_no_dollar schema hdname
  have hd3 : '$' ∉ columnRefPayload schema :=
    columnRefPayload_no_dollar schema hdname
  have hd4 : '$' ∉ toLarkAlternatives (eventTypesOf schema) :=
    eventTypesPayload_no_dollar schema hdenum
  have hd5 : '$' ∉ toLarkAlternatives KNOWN_ACTION_VALUES :=
    actionValuesPayload_no_dollar
  have hb0 : '\x7b' ∉ tmplChunk0 := by decide
  have hb1 : '\x7b' ∉ tmplChunk1 := by decide
  have hb2 : '\x7b' ∉ tmplChunk2 := by decide
  have hb3 : '\x7b' ∉ tmplChunk3 := by decide
  have hb4 : '\x7b' ∉ tmplChunk4 := by decide
  have hb5 : '\x7b' ∉ tmplChunk5 := by decide
  have hbb6 : containsSub tmplChunk6 (cs "\x7b\x7b") = false := by decide
  have hc0 : cs "\x7b\x7bTABLE_NAME\x7d\x7d" =
      '\x7b' :: cs "\x7bTABLE_NAME\x7d\x7d" := rfl
  have hc1 : cs "\x7b\x7bSTRING_COLS\x7d\x7d" =
      '\x7b' :: cs "\x7bSTRING_COLS\x7d\x7d" := rfl
  have hc2 : cs "\x7b\x7bNUMERIC_COLS\x7d\x7d" =
      '\x7b' :: cs "\x7bNUMERIC_COLS\x7d\x7d" := rfl
  have hc3 : cs "\x7b\x7bCOLUMN_REF\x7d\x7d" =
      '\x7b' :: cs "\x7bCOLUMN_REF\x7d\x7d" := rfl
  have hc4 : cs "\x7b\x7bEVENT_TYPES\x7d\x7d" =
      '\x7b' :: cs "\x7bEVENT_TYPES\x7d\x7d" := rfl
  have hc5 : cs "\x7b\x7bACTION_VALUES\x7d\x7d" =
      '\x7b' :: cs "\x7bACTION_VALUES\x7d\x7d" := rfl
  have hmain : buildGrammar schema =
      tmplChunk0 ++ schema.tableName.toList ++
      tmplChunk1 ++ stringColsPayload schema ++
      tmplChunk2 ++ numericColsPayload schema ++
      tmplChunk3 ++ columnRefPayload schema ++
      tmplChunk4 ++ toLarkAlternatives (eventTypesOf schema) ++
      tmplChunk5 ++ toLarkAlternatives KNOWN_ACTION_VALUES ++ tmplChunk6 := by
    unfold buildGrammar GRAMMAR_TEMPLATE
    simp only [List.append_assoc]
    rw [replaceFirst_skip hc0 hb0 hdtn, replaceFirst_hit hc0 hdtn]
    rw [replaceFirst_skip hc1 hb0 hd1, replaceFirst_skip hc1 hbtn hd1,
      replaceFirst_skip hc1 hb1 hd1, replaceFirst_hit hc1 hd1]
    rw [replaceFirst_skip hc2 hb0 hd2, replaceFirst_skip hc2 hbtn hd2,
      replaceFirst_skip hc2 hb1 hd2, replaceFirst_skip hc2 hbr1 hd2,
      replaceFirst_skip hc2 hb2 hd2, replaceFirst_hit hc2 hd2]
    rw [replaceFirst_skip hc3 hb0 hd3, replaceFirst_skip hc3 hbtn hd3,
      replaceFirst_skip hc3 hb1 hd3, replaceFirst_skip hc3 hbr1 hd3,
      replaceFirst_skip hc3 hb2 hd3, replaceFirst_skip hc3 hbr2 hd3,
      replaceFirst_skip hc3 hb3 hd3, replaceFirst_hit hc3 hd3]
    rw [replaceFirst_skip hc4 hb0 hd4, replaceFirst_skip hc4 hbtn hd4,
      replaceFirst_skip hc4 hb1 hd4, replaceFirst_skip hc4 hbr1 hd4,
      replaceFirst_skip hc4 hb2 hd4, replaceFirst_skip hc4 hbr2 hd4,
      replaceFirst_skip hc4 hb3 hd4, replaceFirst_skip hc4 hbr3 hd4,
      replaceFirst_skip hc4 hb4 hd4, replaceFirst_hit hc4 hd4]
    rw [replaceFirst_skip hc5 hb0 hd5, replaceFirst_skip hc5 hbtn hd5,
      replaceFirst_skip hc5 hb1 hd5, replaceFirst_skip hc5 hbr1 hd5,
      replaceFirst_skip hc5 hb2 hd5, replaceFirst_skip hc5 hbr2 hd5,
      replaceFirst_skip hc5 hb3 hd5, replaceFirst_skip hc5 hbr3 hd5,
      replaceFirst_skip hc5 hb4 hd5, replaceFirst_skip hc5 hbr4 hd5,
      replaceFirst_skip hc5 hb5 hd5, replaceFirst_hit hc5 hd5]
  refine ⟨w1, w2, w3, w4, KNOWN_ACTION_VALUES, hw1, hw2, hw3, hw4, hw5,
    ?_, ?_, hfb2⟩
  · rw [hmain, he1, he2, he3, he4]
  · rw [hmain]
    simp only [List.append_assoc]
    exact containsSub_append_bb hb0 (containsSub_append_bb hbtn
      (containsSub_append_bb hb1 (containsSub_append_bb hbr1
        (containsSub_append_bb hb2 (containsSub_append_bb hbr2
          (containsSub_append_bb hb3 (containsSub_append_bb hbr3
            (containsSub_append_bb hb4 (containsSub_append_bb hbr4
              (containsSub_append_bb hb5 (containsSub_append_bb hbr5
                hbb6)))))))))))

/-- C7 witness: the amended statement applied to the static github_events
schema used by the repository's test script. -/
theorem C7_witness :
    ∃ v1 v2 v3 v4 v5 : List String,
      v1 ≠ [] ∧ v2 ≠ [] ∧ v3 ≠ [] ∧ v4 ≠ [] ∧ v5 ≠ [] ∧
      buildGrammar
        ⟨"github_events",
         [⟨"id", "UInt64", none⟩,
          ⟨"type", "Enum8", some KNOWN_EVENT_TYPES⟩,
          ⟨"actor_login", "LowCardinality(String)", none⟩,
          ⟨"repo_name", "LowCardinality(String)", none⟩,
          ⟨"created_at", "DateTime", none⟩,
          ⟨"action", "LowCardinality(String)", none⟩,
          ⟨"number", "UInt32", none⟩,
          ⟨"title", "String", none⟩,
          ⟨"body", "String", none⟩,
          ⟨"ref", "LowCardinality(String)", none⟩,
          ⟨"is_private", "UInt8", none⟩]⟩ =
        tmplChunk0 ++
          (⟨"github_events",
            [⟨"id", "UInt64", none⟩,
             ⟨"type", "Enum8", some KNOWN_EVENT_TYPES⟩,
             ⟨"actor_login", "LowCardinality(String)", none⟩,
             ⟨"repo_name", "LowCardinality(String)", none⟩,
             ⟨"created_at", "DateTime", none⟩,
             ⟨"action", "LowCardinality(String)", none⟩,
             ⟨"number", "UInt32", none⟩,
             ⟨"title", "String", none⟩,
             ⟨"body", "String", none⟩,
             ⟨"ref", "LowCardinality(String)", none⟩,
             ⟨"is_private", "UInt8", none⟩]⟩ : TableSchema).tableName.toList ++
        tmplChunk1 ++ toLarkAlternatives v1 ++
        tmplChunk2 ++ toLarkAlternatives v2 ++
        tmplChunk3 ++ toLarkAlternatives v3 ++
        tmplChunk4 ++ toLarkAlternatives v4 ++
        tmplChunk5 ++ toLarkAlternatives v5 ++ tmplChunk6 ∧
      containsSub
        (buildGrammar
          ⟨"github_events",
           [⟨"id", "UInt64", none⟩,
            ⟨"type", "Enum8", some KNOWN_EVENT_TYPES⟩,
            ⟨"actor_login", "LowCardinality(String)", none⟩,
            ⟨"repo_name", "LowCardinality(String)", none⟩,
            ⟨"created_at", "DateTime", none⟩,
            ⟨"action", "LowCardinality(String)", none⟩,
            ⟨"number", "UInt32", none⟩,
            ⟨"title", "String", none⟩,
            ⟨"body", "String", none⟩,
            ⟨"ref", "LowCardinality(String)", none⟩,
            ⟨"is_private", "UInt8", none⟩]⟩)
        (cs "\x7b\x7b") = false ∧
      (numericColsOf
          ⟨"github_events",
           [⟨"id", "UInt64", none⟩,
            ⟨"type", "Enum8", some KNOWN_EVENT_TYPES⟩,
            ⟨"actor_login", "LowCardinality(String)", none⟩,
            ⟨"repo_name", "LowCardinality(String)", none⟩,
            ⟨"created_at", "DateTime", none⟩,
            ⟨"action", "LowCardinality(String)", none⟩,
            ⟨"number", "UInt32", none⟩,
            ⟨"title", "String", none⟩,
            ⟨"body", "String", none⟩,
            ⟨"ref", "LowCardinality(String)", none⟩,
            ⟨"is_private", "UInt8", none⟩]⟩ = [] → v2 = ["id"]) :=
  C7_grammar_complete _ (by decide) (List.cons_ne_nil _ _) (by decide)
    (by decide) (by decide) (by decide) (by decide) (by decide)
